import Mathlib

/-!
Verification of the data-preprocessing transformation pipeline
(`data_preprocessing/data_transformation.py`) against its specification.

The pandas `DataFrame` is modelled as a row-major rectangular table of
named, dtype-tagged columns whose cells are an explicit scalar sum type.
Missing values (`NaN` / `None` / `NaT`) are a single `Cell.null` marker,
matching the null-normalisation passes of lines 53 and 88 of the source.
Float64 arithmetic is modelled over `ℚ` (exact real-valued semantics);
the one behaviour that genuinely leaves the rationals, division by zero
inside `pct_change`, is modelled by an explicit signed-infinity cell,
mirroring IEEE float64 division.  Fallible pandas operations (`KeyError`
on a missing column label, `TypeError` from object-dtype arithmetic on
`None`, `ValueError` from unparseable dates, `IndexError` from `iloc[0]`
on an empty frame) are modelled with `Except`.
-/

namespace DataPrep

/-- Calendar date, as produced by `pd.to_datetime` on an ISO `YYYY-MM-DD`
string.  The field names are year, month, day. -/
structure Date where
  y : Nat
  m : Nat
  d : Nat
deriving DecidableEq, Repr, Inhabited

/-- Scalar cell of a table.  `null` stands for the single explicit null
marker (pandas `NaN`/`None`/`NaT` after the normalisation passes);
`inf` is the signed infinity produced by float64 division by zero. -/
inductive Cell where
  | null
  | int (z : Int)
  | float (q : ℚ)
  | str (s : String)
  | date (dt : Date)
  | inf (neg : Bool)
deriving DecidableEq, Repr, Inhabited

/-- Column dtype tag, as used by the dtype dispatches in the source
(`select_dtypes`, the object/string dtype test of `trim_spaces`, and the
object dtype test of `standardize_text_columns`). -/
inductive Dtype where
  | int64
  | float64
  | object
  | stringDt
  | datetime
  | uint32
deriving DecidableEq, Repr

/-- One logical record: the cells of a row, positionally aligned with the
column list of its frame. -/
abbrev Row := List Cell

/-- Row-major model of a pandas DataFrame: an ordered list of
(name, dtype) column headers and a list of rows. -/
structure DataFrame where
  cols : List (String × Dtype)
  rows : List Row
deriving DecidableEq, Repr, Inhabited

/-- Rectangularity invariant of a Tabular Value: every row has exactly
one cell per column. -/
def Rect (df : DataFrame) : Prop := ∀ r ∈ df.rows, r.length = df.cols.length

instance (df : DataFrame) : Decidable (Rect df) := by
  unfold Rect; infer_instance

/-- Index of the first occurrence of a label in a name list. -/
def idxOf? (n : String) : List String → Option Nat
  | [] => none
  | m :: rest => if m = n then some 0 else (idxOf? n rest).map (· + 1)

/-- Position of the first column with the given label, like a pandas
column lookup (pandas allows duplicate labels; label access uses the
first matching column of the frame in this model). -/
def colIdx (df : DataFrame) (n : String) : Option Nat :=
  idxOf? n (df.cols.map (·.1))

/-- Whether a label names a column of the frame (`col in self.df.columns`). -/
def hasCol (df : DataFrame) (n : String) : Prop := (colIdx df n).isSome

instance (df : DataFrame) (n : String) : Decidable (hasCol df n) := by
  unfold hasCol; infer_instance

/-- Cells of the named column, top to bottom, if the label exists. -/
def getColCellsO (df : DataFrame) (n : String) : Option (List Cell) :=
  (colIdx df n).map (fun i => df.rows.map (fun r => r.getD i Cell.null))

/-- Cell at the named column and row position (null when out of range):
convenience accessor for stating claims. -/
def getCellD (df : DataFrame) (n : String) (i : Nat) : Cell :=
  match getColCellsO df n with
  | some cs => cs.getD i Cell.null
  | none => Cell.null

/-- Column assignment `df[n] = cells`: overwrites the (first) existing
column with that label in place, or appends a new column on the right,
exactly as pandas column assignment does. -/
def set_col (df : DataFrame) (n : String) (dt : Dtype) (cs : List Cell) : DataFrame :=
  match colIdx df n with
  | some i =>
    ⟨df.cols.set i (n, dt), List.zipWith (fun r c => r.set i c) df.rows cs⟩
  | none =>
    ⟨df.cols ++ [(n, dt)], List.zipWith (fun r c => r ++ [c]) df.rows cs⟩

/-- Error kinds surfaced by the modelled pandas operations. -/
inductive PdError where
  | keyError (c : String)
  | valueError (s : String)
  | typeError
  | indexError
deriving DecidableEq, Repr

deriving instance DecidableEq for Except

/-- Column extraction `df[n]`, raising `KeyError` on an unknown label. -/
def getColE (df : DataFrame) (n : String) : Except PdError (List Cell) :=
  match colIdx df n with
  | some i => .ok (df.rows.map (fun r => r.getD i Cell.null))
  | none => .error (.keyError n)

/-- Numeric view of a cell (ints and floats); pandas arithmetic treats
everything else in this pipeline as missing or unsupported. -/
def toQ : Cell → Option ℚ
  | .int z => some (z : ℚ)
  | .float q => some q
  | _ => none

/-- Whether the cell is a (non-null, non-infinite) number. -/
def isNumCell (c : Cell) : Bool := (toQ c).isSome

/- ### Calendar arithmetic (`.dt.year`, `.dt.month`, `.dt.isocalendar().week`) -/

/-- Gregorian leap-year predicate. -/
def isLeap (y : Nat) : Bool := (y % 4 == 0 && y % 100 != 0) || y % 400 == 0

/-- Month lengths of the given year. -/
def monthDays (y : Nat) : List Nat :=
  [31, if isLeap y then 29 else 28, 31, 30, 31, 30, 31, 31, 30, 31, 30, 31]

/-- Length of one month (0 for an out-of-range month index). -/
def daysInMonth (y m : Nat) : Nat := (monthDays y).getD (m - 1) 0

/-- Ordinal day of the year (1 for January 1). -/
def dayOfYear (y m d : Nat) : Nat := ((monthDays y).take (m - 1)).sum + d

/-- Day of the week, 0 = Monday … 6 = Sunday, proleptic Gregorian
(0001-01-01 is a Monday). -/
def weekday (y m d : Nat) : Nat :=
  (365 * (y - 1) + (y - 1) / 4 - (y - 1) / 100 + (y - 1) / 400 + dayOfYear y m d - 1) % 7

/-- Number of ISO 8601 weeks in a year: 53 iff January 1 falls on a
Thursday, or on a Wednesday of a leap year. -/
def weeksInYear (y : Nat) : Nat :=
  if weekday y 1 1 == 3 || (isLeap y && weekday y 1 1 == 2) then 53 else 52

/-- ISO 8601 week number of a date (week 1 contains the first
Thursday of the year), as returned by `Series.dt.isocalendar().week`. -/
def isoWeek (dt : Date) : Nat :=
  let wd := weekday dt.y dt.m dt.d + 1
  let ord := dayOfYear dt.y dt.m dt.d
  let w := (ord + 10 - wd) / 7
  if w = 0 then weeksInYear (dt.y - 1)
  else if w = 53 ∧ weeksInYear dt.y = 52 then 1
  else w

/- ### Date parsing (`pd.to_datetime`) -/

/-- Decimal digit value of a character, if it is a digit. -/
def digitVal (c : Char) : Option Nat :=
  if c.isDigit then some (c.toNat - 48) else none

/-- Parse of an ISO `YYYY-MM-DD` date string, rejecting out-of-range
months and days as `pd.to_datetime` does.  The date column of this
dataset carries ISO date strings; other textual formats accepted by
pandas are out of scope and rejected here. -/
def parseIsoDate (s : String) : Option Date :=
  match s.data with
  | [y1, y2, y3, y4, h1, mo1, mo2, h2, d1, d2] =>
    if h1 = '-' ∧ h2 = '-' then
      match digitVal y1, digitVal y2, digitVal y3, digitVal y4,
            digitVal mo1, digitVal mo2, digitVal d1, digitVal d2 with
      | some a, some b, some c, some d, some e, some f, some g, some h =>
        let y := ((a * 10 + b) * 10 + c) * 10 + d
        let m := e * 10 + f
        let dd := g * 10 + h
        if 1 ≤ m ∧ m ≤ 12 ∧ 1 ≤ dd ∧ dd ≤ daysInMonth y m then some ⟨y, m, dd⟩ else none
      | _, _, _, _, _, _, _, _ => none
    else none
  | _ => none

/-- Coercion of one cell by `pd.to_datetime`: nulls become `NaT`
(modelled `none`), date cells pass through, strings must parse
(`ValueError` otherwise).  Numeric epoch timestamps, which pandas would
accept, do not occur in this dataset and are modelled as parse errors. -/
def parseDateCell : Cell → Except PdError (Option Date)
  | .null => .ok none
  | .date dt => .ok (some dt)
  | .str s =>
    match parseIsoDate s with
    | some dt => .ok (some dt)
    | none => .error (.valueError s)
  | .int z => .error (.valueError (toString z))
  | .float q => .error (.valueError (toString q.num))
  | .inf _ => .error (.valueError "inf")

/-- Cell holding a parsed date (`NaT` stays the null marker). -/
def dateCellOf : Option Date → Cell
  | some dt => .date dt
  | none => .null

/-- Error-propagating list map, the shape in which `pd.to_datetime`
walks a column and stops at the first unparseable value. -/
def mapE (f : α → Except PdError β) : List α → Except PdError (List β)
  | [] => .ok []
  | a :: l =>
    match f a with
    | .error e => .error e
    | .ok b =>
      match mapE f l with
      | .error e => .error e
      | .ok bs => .ok (b :: bs)

/-- Replacement of the date cell of one row by its parsed value. -/
def parseRowDate (i : Nat) (r : Row) : Except PdError Row :=
  match parseDateCell (r.getD i Cell.null) with
  | .error e => .error e
  | .ok dt => .ok (r.set i (dateCellOf dt))

/- ### Sorting (`sort_values` on the date column) -/

/-- Chronological comparison of dates (lexicographic on y, m, d). -/
def dateLe (a b : Date) : Bool :=
  decide (a.y < b.y ∨ (a.y = b.y ∧ (a.m < b.m ∨ (a.m = b.m ∧ a.d ≤ b.d))))

/-- Sort key of a row: its date cell at the given position (`none` for
`NaT`, which `sort_values` places last). -/
def dateKey (i : Nat) (r : Row) : Option Date :=
  match r.getD i Cell.null with
  | .date dt => some dt
  | _ => none

/-- Key comparison with nulls last (the `na_position` default). -/
def keyLe : Option Date → Option Date → Bool
  | some a, some b => dateLe a b
  | some _, none => true
  | none, some _ => false
  | none, none => true

/-- Row ordering used by the sort step. -/
def rowLe (i : Nat) (a b : Row) : Prop := keyLe (dateKey i a) (dateKey i b) = true

instance (i : Nat) : DecidableRel (rowLe i) := fun _ _ => by
  unfold rowLe; infer_instance

instance (i : Nat) : IsTotal Row (rowLe i) := by
  constructor
  intro a b
  unfold rowLe keyLe
  cases dateKey i a with
  | none => cases dateKey i b <;> simp
  | some da =>
    cases dateKey i b with
    | none => simp
    | some db =>
      unfold dateLe
      simp only [decide_eq_true_eq]
      omega

instance (i : Nat) : IsTrans Row (rowLe i) := by
  constructor
  intro a b c h1 h2
  unfold rowLe keyLe at h1 h2 ⊢
  cases ha : dateKey i a <;> cases hb : dateKey i b <;> cases hc : dateKey i c <;>
    rw [ha, hb] at h1 <;> rw [hb, hc] at h2 <;> simp_all
  unfold dateLe at h1 h2 ⊢
  simp only [decide_eq_true_eq] at h1 h2 ⊢
  omega

/- ### Derived columns -/

/-- Weekly difference column body, `Series.diff()`: position 0 is null,
position i is `price[i] - price[i-1]`. -/
def diffList (xs : List Cell) : List Cell :=
  (List.range xs.length).map fun k =>
    if k = 0 then Cell.null
    else
      match toQ (xs.getD k Cell.null), toQ (xs.getD (k - 1) Cell.null) with
      | some a, some b => Cell.float (a - b)
      | _, _ => Cell.null

/-- Weekly difference `Series.diff()` including its failure mode: after line 53 has turned
`NaN` into `None`, a column containing a null (or other non-number) has
object dtype, and `algorithms.diff` subtracts the raw object arrays, so
any `None` taking part in a subtraction raises `TypeError`.  With at
most one row no subtraction is performed. -/
def diff_col (xs : List Cell) : Except PdError (List Cell) :=
  if xs.length ≤ 1 then .ok (diffList xs)
  else if xs.all isNumCell then .ok (diffList xs)
  else .error .typeError

/-- Rolling 4-week mean, `rolling(window=4).mean()`: with the default
`min_periods = window`, a window is averaged only when it holds four
numeric values (the rolling kernel converts the column to float64 and
counts non-NaN observations); otherwise the result is null. -/
def rolling4 (xs : List Cell) : List Cell :=
  (List.range xs.length).map fun k =>
    if 3 ≤ k then
      match toQ (xs.getD (k - 3) Cell.null), toQ (xs.getD (k - 2) Cell.null),
            toQ (xs.getD (k - 1) Cell.null), toQ (xs.getD k Cell.null) with
      | some a, some b, some c, some d => Cell.float ((a + b + c + d) / 4)
      | _, _, _, _ => Cell.null
    else Cell.null

/-- Year column `.dt.year` (null for `NaT`). -/
def yearCol (xs : List Cell) : List Cell :=
  xs.map fun c => match c with | .date dt => Cell.int dt.y | _ => Cell.null

/-- Month column `.dt.month` (null for `NaT`). -/
def monthCol (xs : List Cell) : List Cell :=
  xs.map fun c => match c with | .date dt => Cell.int dt.m | _ => Cell.null

/-- ISO week column `.dt.isocalendar().week` (null for `NaT`). -/
def weekCol (xs : List Cell) : List Cell :=
  xs.map fun c => match c with | .date dt => Cell.int (isoWeek dt) | _ => Cell.null

/-- Cumulative change `price - start_price[fuel]` against the chronological
first row; null propagates through the subtraction when either term is
missing or non-numeric. -/
def cumulative (xs : List Cell) : List Cell :=
  xs.map fun c =>
    match toQ c, toQ (xs.getD 0 Cell.null) with
    | some a, some b => Cell.float (a - b)
    | _, _ => Cell.null

/-- Binary increase column `(week_diff > 0).astype(int)`: pandas null
comparison yields `False`, so null and non-positive differences both map
to 0. -/
def priceIncrease (xs : List Cell) : List Cell :=
  xs.map fun c =>
    match toQ c with
    | some q => Cell.int (if 0 < q then 1 else 0)
    | none => Cell.int 0

/-- Forward fill of an optional-number sequence, the pad fill-method
default applied inside `Series.pct_change`. -/
def ffill : List (Option ℚ) → Option ℚ → List (Option ℚ)
  | [], _ => []
  | some q :: rest, _ => some q :: ffill rest (some q)
  | none :: rest, prev => prev :: ffill rest prev

/-- Percentage change column `Series.pct_change() * 100`: pandas
forward-fills the column, divides it by its shift, and subtracts one.
Division by a zero base follows float64 semantics: `0/0` is `NaN`
(and becomes null in the final null pass) and `a/0` for `a ≠ 0` is a
signed infinity, which survives the null pass because it is not `NaN`. -/
def pct_change_col (xs : List Cell) : List Cell :=
  let f := ffill (xs.map toQ) none
  (List.range xs.length).map fun k =>
    if k = 0 then Cell.null
    else
      match f.getD k none, f.getD (k - 1) none with
      | some a, some b =>
        if b = 0 then (if a = 0 then Cell.null else Cell.inf (decide (a < 0)))
        else Cell.float (100 * (a / b - 1))
      | _, _ => Cell.null

/- ### The fixed pipeline `transform_fuel_data` (lines 16-93) -/

/-- Rename map of lines 38-43. -/
def renameMapping : List (String × String) :=
  [("ron95", "ron95_price"), ("ron97", "ron97_price"),
   ("diesel", "diesel_price"), ("date", "price_date")]

/-- Rename of one label (unknown labels are untouched, the pandas
`rename` default). -/
def renameName (n : String) : String := (renameMapping.lookup n).getD n

/-- Line 44: `df.rename(columns=column_mapping)`. -/
def rename_columns (df : DataFrame) : DataFrame :=
  ⟨df.cols.map (fun p => (renameName p.1, p.2)), df.rows⟩

/-- Successive column assignments `df[n] = cells` in source order. -/
def addCols (df : DataFrame) : List (String × Dtype × List Cell) → DataFrame
  | [] => df
  | (n, dt, cs) :: rest => addCols (set_col df n dt cs) rest

/-- Lines 53-93: the pipeline tail run on the date-parsed, sorted frame.
Line 53 (`fillna(np.nan).replace(...)`) is the identity here because
missing values are already the explicit null cell.  Each derived column
is computed from the sorted frame and assigned in source order; the
raisable operations (`df[...]` lookups of lines 56-58, the object-dtype
`diff` subtractions, and `df.iloc[0]` of line 72 on an empty frame)
occur in source order. -/
def afterSort (df : DataFrame) : Except PdError DataFrame :=
  match getColE df "ron95_price" with
  | .error e => .error e
  | .ok p95 =>
  match diff_col p95 with
  | .error e => .error e
  | .ok w95 =>
  match getColE df "ron97_price" with
  | .error e => .error e
  | .ok p97 =>
  match diff_col p97 with
  | .error e => .error e
  | .ok w97 =>
  match getColE df "diesel_price" with
  | .error e => .error e
  | .ok pdi =>
  match diff_col pdi with
  | .error e => .error e
  | .ok wdi =>
  match getColE df "price_date" with
  | .error e => .error e
  | .ok pdc =>
  if df.rows.isEmpty then .error .indexError
  else
    .ok (addCols df
      [("ron95_week_diff", .float64, w95),
       ("ron97_week_diff", .float64, w97),
       ("diesel_week_diff", .float64, wdi),
       ("ron95_4wk_avg", .float64, rolling4 p95),
       ("ron97_4wk_avg", .float64, rolling4 p97),
       ("diesel_4wk_avg", .float64, rolling4 pdi),
       ("year", .int64, yearCol pdc),
       ("month", .int64, monthCol pdc),
       ("ron95_cumulative_change", .float64, cumulative p95),
       ("ron97_cumulative_change", .float64, cumulative p97),
       ("diesel_cumulative_change", .float64, cumulative pdi),
       ("ron95_price_increase", .int64, priceIncrease w95),
       ("ron97_price_increase", .int64, priceIncrease w97),
       ("diesel_price_increase", .int64, priceIncrease wdi),
       ("ron95_pct_change", .float64, pct_change_col p95),
       ("ron97_pct_change", .float64, pct_change_col p97),
       ("diesel_pct_change", .float64, pct_change_col pdi),
       ("week", .uint32, weekCol pdc)])

/-- The method `DataTransformer.transform_fuel_data` (lines 16-93): rename, parse
the `price_date` column (`KeyError` when absent, `ValueError` on the
first unparseable value), stable ascending sort by date with nulls last
(`sort_values` keys on the parsed timestamps; any correct sort agrees on
frames whose keys are distinct, and this model fixes the stable order
for ties), then the derived-column tail. -/
def transform_fuel_data (self : DataFrame) : Except PdError DataFrame :=
  match colIdx (rename_columns self) "price_date" with
  | none => .error (.keyError "price_date")
  | some pidx =>
  match mapE (parseRowDate pidx) (rename_columns self).rows with
  | .error e => .error e
  | .ok prows =>
    afterSort ⟨(rename_columns self).cols.set pidx ("price_date", .datetime),
               List.insertionSort (rowLe pidx) prows⟩

/-- Embedding of the method boundary of `transform_fuel_data`: the method
reads `self.df` once into a deep working copy (line 35) and every later
statement of the body assigns only to that local copy, so the state of
`self.df` passes through the call unchanged and the pair returned here
is (result, post-call state of `self.df`). -/
def transform_fuel_data_method (self : DataFrame) :
    Except PdError DataFrame × DataFrame :=
  (transform_fuel_data self, self)

/- ### Reusable cleaning primitives (lines 95-152) -/

/-- Cleaning primitive `convert_datetime_col` (lines 98-102): coerce each listed column that
is present to datetime, silently skipping labels absent from the
schema. -/
def convert_datetime_col (df : DataFrame) : List String → Except PdError DataFrame
  | [] => .ok df
  | c :: rest =>
    match colIdx df c with
    | some i => do
      let parsed ← mapE (fun r => parseDateCell (r.getD i Cell.null)) df.rows
      convert_datetime_col (set_col df c .datetime (parsed.map dateCellOf)) rest
    | none => convert_datetime_col df rest

/-- Median of the numeric values of a column, ignoring nulls
(`Series.median()`); undefined (`NaN`, modelled `none`) when no numeric
value exists. -/
def colMedian (xs : List Cell) : Option ℚ :=
  let qs := List.insertionSort (fun a b : ℚ => a ≤ b) (xs.filterMap toQ)
  if qs.length = 0 then none
  else if qs.length % 2 = 1 then some (qs.getD (qs.length / 2) 0)
  else some ((qs.getD (qs.length / 2 - 1) 0 + qs.getD (qs.length / 2) 0) / 2)

/-- Column value computed (and then discarded) by line 109,
`self.df[col].fillna(self.df[col].median())`: nulls replaced by the
column median when the median exists. -/
def fillnaMedianList (xs : List Cell) : List Cell :=
  match colMedian xs with
  | some m => xs.map (fun c => match c with | .null => Cell.float m | c => c)
  | none => xs

/-- Cleaning primitive `fill_missing_numeric` (lines 105-110) as written: line 109 calls
`fillna` without `inplace` and never assigns the result back to
`self.df[col]`, so the produced column (`fillnaMedianList`) is discarded
and the frame is returned unchanged. -/
def fill_missing_numeric (df : DataFrame) : DataFrame := df

/-- Modelled from the spec: `fill_missing_numeric()` as specified, for
comparison — every entirely-numeric (int64/float64) column has its null
cells replaced by the column median over non-null values, and columns
with no non-null value are left unchanged. -/
def fill_missing_numeric_spec (df : DataFrame) : DataFrame :=
  (df.cols.filter (fun p => p.2 == Dtype.int64 || p.2 == Dtype.float64)).foldl
    (fun acc p =>
      match getColCellsO acc p.1 with
      | some cs => set_col acc p.1 p.2 (fillnaMedianList cs)
      | none => acc)
    df

/-- Python whitespace class `\s` (ASCII part), also what `str.strip()`
removes. -/
def isPySpace (c : Char) : Bool :=
  c == ' ' || c == '\t' || c == '\n' || c == '\r' || c == '\x0b' || c == '\x0c'

/-- Leading- and trailing-whitespace strip of a character list. -/
def stripChars (l : List Char) : List Char :=
  ((l.dropWhile isPySpace).reverse.dropWhile isPySpace).reverse

/-- Python `str.strip()`. -/
def pyStrip (s : String) : String := String.mk (stripChars s.data)

/-- Uppercase → lowercase letter table (ASCII). -/
def lowerPairs : List (Char × Char) :=
  [('A', 'a'), ('B', 'b'), ('C', 'c'), ('D', 'd'), ('E', 'e'), ('F', 'f'),
   ('G', 'g'), ('H', 'h'), ('I', 'i'), ('J', 'j'), ('K', 'k'), ('L', 'l'),
   ('M', 'm'), ('N', 'n'), ('O', 'o'), ('P', 'p'), ('Q', 'q'), ('R', 'r'),
   ('S', 's'), ('T', 't'), ('U', 'u'), ('V', 'v'), ('W', 'w'), ('X', 'x'),
   ('Y', 'y'), ('Z', 'z')]

/-- ASCII uppercase test, the `[A-Z]` class of the snake-case regexes. -/
def isUpperA (c : Char) : Bool := (lowerPairs.lookup c).isSome

/-- ASCII lowercasing of one character (`str.lower()`, on the ASCII
alphabet this pipeline uses for column names). -/
def toLowerA (c : Char) : Char := (lowerPairs.lookup c).getD c

/-- ASCII uppercasing of one character (`str.upper()`). -/
def toUpperA (c : Char) : Char :=
  ((lowerPairs.find? (fun p => p.2 == c)).map (·.1)).getD c

/-- Python `str.upper()` (ASCII). -/
def pyUpper (s : String) : String := String.mk (s.data.map toUpperA)

/-- Per-cell update of `standardize_text_columns`,
`.str.strip().str.upper()`: string accessor methods turn every
non-string cell (nulls included) into a missing value. -/
def stdTextCell : Cell → Cell
  | .str s => .str (pyUpper (pyStrip s))
  | _ => .null

/-- Cleaning primitive `standardize_text_columns` (lines 120-124): uppercase and strip each
listed column that is present and has object dtype; absent labels and
non-object columns are silently skipped. -/
def standardize_text_columns (df : DataFrame) : List String → DataFrame
  | [] => df
  | c :: rest =>
    match colIdx df c with
    | some i =>
      if (df.cols.getD i ("", .object)).2 = Dtype.object then
        standardize_text_columns
          (set_col df c .object
            ((df.rows.map (fun r => r.getD i Cell.null)).map stdTextCell)) rest
      else standardize_text_columns df rest
    | none => standardize_text_columns df rest

/-- Lowercase test `[a-z]`, the first group of the camel-case regex. -/
def isLowerA (c : Char) : Bool := (lowerPairs.find? (fun p => p.2 == c)).isSome

/-- Digit test `[0-9]`. -/
def isDigitA (c : Char) : Bool := '0' ≤ c && c ≤ '9'

/-- Global substitution of `(g)([A-Z])` by `\1_\2` for a one-character
class `g`: re.sub scans left to right and resumes after each consumed
two-character match. -/
def camelSub (g : Char → Bool) : List Char → List Char
  | [] => []
  | [c] => [c]
  | a :: b :: rest =>
    if g a && isUpperA b then a :: '_' :: b :: camelSub g rest
    else a :: camelSub g (b :: rest)
termination_by l => l.length

mutual

/-- Global substitution of `\s+` by a single underscore. -/
def wsSub : List Char → List Char
  | [] => []
  | c :: rest => if isPySpace c then '_' :: wsSkip rest else c :: wsSub rest

/-- Continuation of `wsSub` inside a whitespace run. -/
def wsSkip : List Char → List Char
  | [] => []
  | c :: rest => if isPySpace c then wsSkip rest else c :: wsSub rest

end

/-- Character-list body of the snake-case formatter of lines 128-135:
names containing a space have whitespace runs replaced by underscores
and are lowercased; otherwise underscores are inserted by the two
camel-case substitutions before lowercasing; finally all periods are
removed. -/
def snakeList (l : List Char) : List Char :=
  ((if l.contains ' ' then wsSub l
    else camelSub (fun c => isLowerA c || isDigitA c) (camelSub isLowerA l)).map
      toLowerA).filter (fun c => c != '.')

/-- Snake-case canonicalization of one column name. -/
def snakeName (s : String) : String := String.mk (snakeList s.data)

/-- Cleaning primitive `format_column_names_to_snake_case` (lines 127-136): rewrite every
column label (the method assigns `self.df.columns` in place and returns
the frame). -/
def format_column_names_to_snake_case (df : DataFrame) : DataFrame :=
  ⟨df.cols.map (fun p => (snakeName p.1, p.2)), df.rows⟩

/-- Python `str()` of a cell, the `astype(str)` coercion of line 147.
Integral floats render with a trailing `.0`; the fractional-float and
timestamp renderings are simplified stand-ins for the float `repr` and
`Timestamp` string forms, which the data of this repository never feeds
through `trim_spaces`. -/
def pyStr : Cell → String
  | .null => "None"
  | .int z => toString z
  | .float q => if q.den = 1 then toString q.num ++ ".0" else toString q.num ++ "/" ++ toString q.den
  | .str s => s
  | .date dt => toString dt.y ++ "-" ++ toString dt.m ++ "-" ++ toString dt.d
  | .inf neg => if neg then "-inf" else "inf"

/-- Cell update of line 147, `astype(str).str.strip()`. -/
def trimCell (c : Cell) : Cell := .str (pyStrip (pyStr c))

/-- Names of the object/string-dtype columns
(the object/string `select_dtypes` call of line 141). -/
def textColNames (df : DataFrame) : List String :=
  (df.cols.filter (fun p => p.2 == Dtype.object || p.2 == Dtype.stringDt)).map (·.1)

/-- Loop body of `trim_spaces` (lines 144-150): `self.df[col].dtype`
raises `KeyError` for a label absent from the frame; object/string
columns are stringified and stripped in place; other dtypes only get a
printed notice and are left untouched. -/
def trimGo (df : DataFrame) : List String → Except PdError DataFrame
  | [] => .ok df
  | c :: rest =>
    match colIdx df c with
    | none => .error (.keyError c)
    | some i =>
      if (df.cols.getD i ("", .object)).2 = Dtype.object ∨
         (df.cols.getD i ("", .object)).2 = Dtype.stringDt then
        trimGo (set_col df c .object
          ((df.rows.map (fun r => r.getD i Cell.null)).map trimCell)) rest
      else trimGo df rest

/-- Cleaning primitive `trim_spaces` (lines 139-152): an empty (falsy) column list selects
every object/string-dtype column; otherwise the given labels are
processed as given. -/
def trim_spaces (df : DataFrame) (columns : List String) : Except PdError DataFrame :=
  trimGo df (if columns.isEmpty then textColNames df else columns)

/-- Name shape produced by one canonicalization pass: no ASCII
uppercase, no space, no period. -/
def cleanName (l : List Char) : Prop :=
  (∀ c ∈ l, isUpperA c = false) ∧ ' ' ∉ l ∧ '.' ∉ l

/-- Whether the (first) column with this label has object or string
dtype, the condition of line 145. -/
def isTextColB (df : DataFrame) (n : String) : Bool :=
  match colIdx df n with
  | some i =>
    ((df.cols.getD i ("", Dtype.object)).2 == Dtype.object) ||
    ((df.cols.getD i ("", Dtype.object)).2 == Dtype.stringDt)
  | none => false

/-- Propositional form of `isTextColB`. -/
def TextCol (df : DataFrame) (n : String) : Prop := isTextColB df n = true

instance (df : DataFrame) (n : String) : Decidable (TextCol df n) := by
  unfold TextCol; infer_instance

/- ### Auxiliary definitions for the statements -/

/-- The three fuels of the pipeline. -/
def fuels : List String := ["ron95", "ron97", "diesel"]

/-- Successful result of a transform, with an empty-frame fallback that
successful runs never hit. -/
def okOr (e : Except PdError DataFrame) : DataFrame :=
  match e with
  | .ok out => out
  | .error _ => ⟨[], []⟩

/-- Date obtained by parsing the date cell of a row, when parsing
succeeds with a non-null date. -/
def parsedKey (i : Nat) (r : Row) : Option Date :=
  match parseDateCell (r.getD i Cell.null) with
  | .ok (some dt) => some dt
  | _ => none

/-- Whether a parse result is a successfully parsed, non-null date. -/
def isOkSome : Except PdError (Option Date) → Bool
  | .ok (some _) => true
  | _ => false

/-- Boolean form of the input-table condition of the order-invariance
property. -/
def goodDatesB (df : DataFrame) : Bool :=
  match colIdx (rename_columns df) "price_date" with
  | some pidx =>
    df.rows.all (fun r => isOkSome (parseDateCell (r.getD pidx Cell.null))) &&
    decide (df.rows.map (parsedKey pidx)).Nodup
  | none => false

/-- Input-table condition of the order-invariance property: the renamed
frame has a `price_date` column, the date cell of every row parses to a
(non-null) date, and the parsed dates are pairwise distinct. -/
def GoodDates (df : DataFrame) : Prop := goodDatesB df = true

instance (df : DataFrame) : Decidable (GoodDates df) := by
  unfold GoodDates; infer_instance

/- ### Concrete frames used by the witnesses and counterexamples -/

/-- The spec scenario input, exactly as stated: records carrying only
`date` and `ron95`. -/
def dfScenario : DataFrame :=
  ⟨[("date", .object), ("ron95", .float64)],
   [[.str "2024-01-08", .float (41/20)], [.str "2024-01-01", .float 2]]⟩

/-- The spec scenario input completed with ron97 and diesel values, the
minimal repair that lets the pipeline run. -/
def dfScenarioFull : DataFrame :=
  ⟨[("date", .object), ("ron95", .float64), ("ron97", .float64), ("diesel", .float64)],
   [[.str "2024-01-08", .float (41/20), .float (61/20), .float (43/20)],
    [.str "2024-01-01", .float 2, .float 3, .float (21/10)]]⟩

/-- Frame whose chronological first ron95 price is zero. -/
def dfZeroBase : DataFrame :=
  ⟨[("date", .object), ("ron95", .float64), ("ron97", .float64), ("diesel", .float64)],
   [[.str "2024-01-01", .float 0, .float 3, .float (21/10)],
    [.str "2024-01-08", .float 2, .float (61/20), .float (43/20)]]⟩

/-- Clean two-row frame for instantiating the pct-change property. -/
def dfPct : DataFrame :=
  ⟨[("date", .object), ("ron95", .float64), ("ron97", .float64), ("diesel", .float64)],
   [[.str "2024-01-01", .float 2, .float 3, .float (21/10)],
    [.str "2024-01-08", .float (41/20), .float (61/20), .float (43/20)]]⟩

/-- Frame with a numeric column `x = [1.0, null, 3.0]`. -/
def dfMedian : DataFrame :=
  ⟨[("x", .float64)], [[.float 1], [.null], [.float 3]]⟩

/-- Frame from which the `diesel` fuel column is absent. -/
def dfNoDiesel : DataFrame :=
  ⟨[("date", .object), ("ron95", .float64), ("ron97", .float64)],
   [[.str "2024-01-08", .float (41/20), .float (61/20)],
    [.str "2024-01-01", .float 2, .float 3]]⟩

/-- Frame for the presence theorem: all columns present. -/
def dfPresence : DataFrame :=
  ⟨[("date", .object), ("ron95", .float64), ("ron97", .float64), ("diesel", .float64)],
   [[.str "2024-01-01", .float 2, .float 3, .float (21/10)]]⟩

/-- Two rows sharing one `price_date` but differing in price. -/
def dfTie : DataFrame :=
  ⟨[("date", .object), ("ron95", .float64), ("ron97", .float64), ("diesel", .float64)],
   [[.str "2024-01-01", .float 2, .float 3, .float (21/10)],
    [.str "2024-01-01", .float 5, .float 3, .float (21/10)]]⟩

/-- The same two tied rows, swapped. -/
def dfTieSwap : DataFrame :=
  ⟨[("date", .object), ("ron95", .float64), ("ron97", .float64), ("diesel", .float64)],
   [[.str "2024-01-01", .float 5, .float 3, .float (21/10)],
    [.str "2024-01-01", .float 2, .float 3, .float (21/10)]]⟩

/-- Two rows with distinct dates, in scrambled order. -/
def dfPerm : DataFrame :=
  ⟨[("date", .object), ("ron95", .float64), ("ron97", .float64), ("diesel", .float64)],
   [[.str "2024-01-08", .float (41/20), .float (61/20), .float (43/20)],
    [.str "2024-01-01", .float 2, .float 3, .float (21/10)]]⟩

/-- The same two rows in chronological order. -/
def dfPermSwap : DataFrame :=
  ⟨[("date", .object), ("ron95", .float64), ("ron97", .float64), ("diesel", .float64)],
   [[.str "2024-01-01", .float 2, .float 3, .float (21/10)],
    [.str "2024-01-08", .float (41/20), .float (61/20), .float (43/20)]]⟩

/-- Five-row clean frame exercising a full rolling window. -/
def dfRolling : DataFrame :=
  ⟨[("date", .object), ("ron95", .float64), ("ron97", .float64), ("diesel", .float64)],
   [[.str "2024-01-01", .float 2, .float 3, .float 2],
    [.str "2024-01-08", .float (41/20), .float 3, .float 2],
    [.str "2024-01-15", .float (21/10), .float 3, .float 2],
    [.str "2024-01-22", .float (43/20), .float 3, .float 2],
    [.str "2024-01-29", .float (11/5), .float 3, .float 2]]⟩

/-- Frame with one text column and one float column, the latter holding
`1.0` with no whitespace issue. -/
def dfTrim : DataFrame :=
  ⟨[("a", .object), ("x", .float64)],
   [[.str "  hi  ", .float 1]]⟩

/-- Frame with a single text column, for the absent-label contrast. -/
def dfAbsent : DataFrame :=
  ⟨[("a", .object)], [[.str " b "]]⟩

/-!
## Theorems

The core `Rat` operations are sealed against definitional unfolding;
re-opening them lets `decide` evaluate the pipeline on the concrete
frames above inside the kernel.
-/

unseal Rat.sub Rat.add Rat.mul Rat.inv

/-- Claim C7: `transform_fuel_data` works on a copy (line 35) and every
statement of its body assigns only to that local copy, so the table
`self.df` of the caller — its column headers and every cell — is identical
before and after the call, error or not, and nothing but the returned
value is produced. -/
theorem C7_transform_preserves_self (self : DataFrame) :
    (transform_fuel_data_method self).2 = self ∧
    (transform_fuel_data_method self).2.cols = self.cols ∧
    (∀ n i, getCellD (transform_fuel_data_method self).2 n i = getCellD self n i) ∧
    (transform_fuel_data_method self).1 = transform_fuel_data self :=
  ⟨rfl, rfl, fun _ _ => rfl, rfl⟩

/-- Claim C1, counterexample: on the scenario input exactly as stated
(records carrying only `date` and `ron95`), `transform_fuel_data` does
not return the described table at all — line 57 looks up the absent
column `ron97_price` and raises `KeyError`. -/
theorem C1_counterexample :
    transform_fuel_data dfScenario = .error (.keyError "ron97_price") := by decide

/-- Claim C1 (corrected): once the scenario records also carry the other
two fuel columns, the transform returns rows ordered `2024-01-01` then
`2024-01-08` with `ron95_week_diff = [null, 0.05]`,
`ron95_cumulative_change = [0.0, 0.05]`, `ron95_price_increase = [0, 1]`
and `ron95_pct_change = [null, 2.5]`, exactly as the scenario says. -/
theorem C1_amended_scenario :
    ∃ out, transform_fuel_data dfScenarioFull = .ok out ∧
      getColCellsO out "price_date" =
        some [.date ⟨2024, 1, 1⟩, .date ⟨2024, 1, 8⟩] ∧
      getColCellsO out "ron95_week_diff" = some [.null, .float (1/20)] ∧
      getColCellsO out "ron95_cumulative_change" = some [.float 0, .float (1/20)] ∧
      getColCellsO out "ron95_price_increase" = some [.int 0, .int 1] ∧
      getColCellsO out "ron95_pct_change" = some [.null, .float (5/2)] :=
  ⟨okOr (transform_fuel_data dfScenarioFull),
   by decide, by decide, by decide, by decide, by decide, by decide⟩

/-- Claim C3: the code is wrong and the claim is right.  On the numeric
column `x = [1.0, null, 3.0]` the returned frame still holds the null:
line 109 computes the median-filled column (`fillnaMedianList`, whose
value is indeed `[1.0, 2.0, 3.0]`) but discards it instead of assigning
it back, so `fill_missing_numeric` returns its frame unchanged, contrary
to the stated purpose of the function.  The last conjunct evaluates the
spec-described behaviour for contrast. -/
theorem C3_fill_missing_numeric_bug :
    fill_missing_numeric dfMedian = dfMedian ∧
    getCellD (fill_missing_numeric dfMedian) "x" 1 = Cell.null ∧
    fillnaMedianList [.float 1, .null, .float 3] = [.float 1, .float 2, .float 3] ∧
    getCellD (fill_missing_numeric_spec dfMedian) "x" 1 = Cell.float 2 :=
  ⟨rfl, by decide, by decide, by decide⟩

/-- Claim C2, counterexample: with chronological ron95 prices
`[0.0, 2.0]` the previous price of row 1 is zero, yet the produced
`ron95_pct_change` cell is positive infinity (float64 division by zero),
not null as the claim demands. -/
theorem C2_counterexample :
    ∃ out, transform_fuel_data dfZeroBase = .ok out ∧
      getCellD out "ron95_price" 0 = .float 0 ∧
      getCellD out "ron95_pct_change" 1 = .inf false :=
  ⟨okOr (transform_fuel_data dfZeroBase), by decide, by decide, by decide⟩

/-- Claim C4, counterexample: a table from which only the optional
`diesel` column is absent is not transformed with the diesel-derived
columns omitted — the transform fails with `KeyError` on
`diesel_price` (raised by line 58). -/
theorem C4_counterexample :
    transform_fuel_data dfNoDiesel = .error (.keyError "diesel_price") := by decide

/-- Claim C5, counterexample: two tables that are row-permutations of
each other but share a duplicated `price_date` produce different output
tables, because the sort fixes the order of tied rows from their input
order. -/
theorem C5_counterexample :
    dfTie.cols = dfTieSwap.cols ∧ dfTie.rows.Perm dfTieSwap.rows ∧
    transform_fuel_data dfTie ≠ transform_fuel_data dfTieSwap :=
  ⟨rfl, by decide, by decide⟩

/-- Claim C9, counterexample: `trim_spaces` called with the explicit
column list `["x"]` on a frame whose column `x` has float64 dtype leaves
the frame completely unchanged — line 145 skips non-object/string
dtypes with a printed notice — whereas the claim demands the cell be
stringified (which `trimCell` would turn into the string `"1.0"`) and
trimmed. -/
theorem C9_counterexample :
    trim_spaces dfTrim ["x"] = .ok dfTrim ∧
    getCellD dfTrim "x" 0 = .float 1 ∧
    trimCell (.float 1) = .str "1.0" :=
  ⟨by decide, by decide, by decide⟩

/-! ### Idempotence of the snake-case canonicalizer (claim C8) -/

theorem lookup_mem_snd {l : List (Char × Char)} {c v : Char}
    (h : l.lookup c = some v) : v ∈ l.map (·.2) := by
  induction l with
  | nil => simp [List.lookup] at h
  | cons p rest ih =>
    rw [List.lookup] at h
    by_cases hc : c == p.1
    · simp [hc] at h; simp [h]
    · simp [hc] at h; simp [ih h]

theorem lower_vals_not_upper : ∀ v ∈ lowerPairs.map (·.2), isUpperA v = false := by decide

theorem lower_vals_ne_dot : ∀ v ∈ lowerPairs.map (·.2), v ≠ '.' := by decide

theorem lower_vals_ne_space : ∀ v ∈ lowerPairs.map (·.2), v ≠ ' ' := by decide

theorem toLowerA_not_upper (c : Char) : isUpperA (toLowerA c) = false := by
  unfold toLowerA
  cases h : lowerPairs.lookup c with
  | none => simpa [isUpperA] using congrArg Option.isSome h
  | some v => simpa using lower_vals_not_upper v (lookup_mem_snd h)

theorem toLowerA_eq_dot {c : Char} (h : toLowerA c = '.') : c = '.' := by
  unfold toLowerA at h
  cases hl : lowerPairs.lookup c with
  | none => rw [hl] at h; exact h
  | some v =>
    rw [hl] at h
    exact absurd h (lower_vals_ne_dot v (lookup_mem_snd hl))

theorem toLowerA_eq_space {c : Char} (h : toLowerA c = ' ') : c = ' ' := by
  unfold toLowerA at h
  cases hl : lowerPairs.lookup c with
  | none => rw [hl] at h; exact h
  | some v =>
    rw [hl] at h
    exact absurd h (lower_vals_ne_space v (lookup_mem_snd hl))

theorem toLowerA_id_of_not_upper {c : Char} (h : isUpperA c = false) : toLowerA c = c := by
  unfold toLowerA
  unfold isUpperA at h
  cases hl : lowerPairs.lookup c with
  | none => rfl
  | some v => rw [hl] at h; simp at h

theorem mem_camelSub (g : Char → Bool) :
    ∀ (l : List Char), ∀ c ∈ camelSub g l, c ∈ l ∨ c = '_'
  | [] => by simp [camelSub]
  | [a] => by simp [camelSub]
  | a :: b :: rest => by
    intro c hc
    rw [camelSub] at hc
    split at hc
    · simp only [List.mem_cons] at hc
      rcases hc with h | h | h | h
      · exact Or.inl (by simp [h])
      · exact Or.inr h
      · exact Or.inl (by simp [h])
      · rcases mem_camelSub g rest c h with h' | h'
        · exact Or.inl (by simp [List.mem_cons, h'])
        · exact Or.inr h'
    · simp only [List.mem_cons] at hc
      rcases hc with h | h
      · exact Or.inl (by simp [h])
      · rcases mem_camelSub g (b :: rest) c h with h' | h'
        · exact Or.inl (by simp only [List.mem_cons] at h' ⊢; exact Or.inr h')
        · exact Or.inr h'
termination_by l => l.length

theorem camelSub_id_of_not_upper (g : Char → Bool) :
    ∀ (l : List Char), (∀ c ∈ l, isUpperA c = false) → camelSub g l = l
  | [] => by intro _; rw [camelSub]
  | [a] => by intro _; rw [camelSub]
  | a :: b :: rest => by
    intro h
    have hb : isUpperA b = false := h b (by simp)
    rw [camelSub, if_neg (by simp [hb])]
    rw [camelSub_id_of_not_upper g (b :: rest)
      (fun c hc => h c (List.mem_cons_of_mem a hc))]
termination_by l => l.length

theorem mem_wsSub_both (l : List Char) :
    (∀ c ∈ wsSub l, (c ∈ l ∧ isPySpace c = false) ∨ c = '_') ∧
    (∀ c ∈ wsSkip l, (c ∈ l ∧ isPySpace c = false) ∨ c = '_') := by
  induction l with
  | nil => constructor <;> intro c hc <;> simp [wsSub, wsSkip] at hc
  | cons a rest ih =>
    constructor
    · intro c hc
      rw [wsSub] at hc
      split at hc
      · simp only [List.mem_cons] at hc
        rcases hc with h | h
        · exact Or.inr h
        · rcases ih.2 c h with ⟨h1, h2⟩ | h'
          · exact Or.inl ⟨by simp [h1], h2⟩
          · exact Or.inr h'
      · simp only [List.mem_cons] at hc
        rcases hc with h | h
        · subst h; exact Or.inl ⟨by simp, by simp_all⟩
        · rcases ih.1 c h with ⟨h1, h2⟩ | h'
          · exact Or.inl ⟨by simp [h1], h2⟩
          · exact Or.inr h'
    · intro c hc
      rw [wsSkip] at hc
      split at hc
      · rcases ih.2 c hc with ⟨h1, h2⟩ | h'
        · exact Or.inl ⟨by simp [h1], h2⟩
        · exact Or.inr h'
      · simp only [List.mem_cons] at hc
        rcases hc with h | h
        · subst h; exact Or.inl ⟨by simp, by simp_all⟩
        · rcases ih.1 c h with ⟨h1, h2⟩ | h'
          · exact Or.inl ⟨by simp [h1], h2⟩
          · exact Or.inr h'

theorem snakeList_clean (l : List Char) : cleanName (snakeList l) := by
  unfold snakeList
  refine ⟨?_, ?_, ?_⟩
  · intro c hc
    have hc' := List.mem_of_mem_filter hc
    rcases List.mem_map.1 hc' with ⟨c₀, _, rfl⟩
    exact toLowerA_not_upper c₀
  · intro hc
    have hc' := List.mem_of_mem_filter hc
    rcases List.mem_map.1 hc' with ⟨c₀, hc₀, hl⟩
    have hc0 : c₀ = ' ' := toLowerA_eq_space hl
    subst hc0
    split at hc₀
    · rcases (mem_wsSub_both l).1 _ hc₀ with ⟨_, h2⟩ | h'
      · simp [isPySpace] at h2
      · simp at h'
    · rename_i hcontains
      rcases mem_camelSub _ _ _ hc₀ with h | h
      · rcases mem_camelSub _ _ _ h with h' | h'
        · exact hcontains (by simpa using h')
        · simp at h'
      · simp at h
  · intro hc
    have := List.of_mem_filter hc
    simp at this

theorem contains_eq_false_of_not_mem {l : List Char} {c : Char} (h : c ∉ l) :
    l.contains c = false := by
  simpa [List.contains] using h

theorem map_toLowerA_id {l : List Char} (h : ∀ c ∈ l, isUpperA c = false) :
    l.map toLowerA = l := by
  calc l.map toLowerA = l.map id :=
        List.map_congr_left (fun c hc => toLowerA_id_of_not_upper (h c hc))
    _ = l := List.map_id l

theorem snakeList_id_of_clean {l : List Char} (h : cleanName l) : snakeList l = l := by
  obtain ⟨hup, hsp, hdot⟩ := h
  unfold snakeList
  rw [if_neg (by rw [contains_eq_false_of_not_mem hsp]; simp)]
  rw [camelSub_id_of_not_upper _ l hup, camelSub_id_of_not_upper _ l hup]
  rw [map_toLowerA_id hup]
  exact List.filter_eq_self.mpr (fun c hc => by
    simp only [bne_iff_ne, ne_eq]
    exact fun he => hdot (he ▸ hc))

theorem snakeList_idem (l : List Char) : snakeList (snakeList l) = snakeList l :=
  snakeList_id_of_clean (snakeList_clean l)

theorem snakeName_idem (s : String) : snakeName (snakeName s) = snakeName s := by
  unfold snakeName
  exact congrArg String.mk (snakeList_idem s.data)

/-- Claim C8: column-name canonicalization is idempotent — applying
`format_column_names_to_snake_case` twice yields exactly the frame
obtained by applying it once (one pass already removes every uppercase
letter, space and period, and a second pass fixes such names). -/
theorem C8_snake_case_idempotent (df : DataFrame) :
    format_column_names_to_snake_case (format_column_names_to_snake_case df) =
      format_column_names_to_snake_case df := by
  unfold format_column_names_to_snake_case
  simp only [List.map_map]
  refine congrArg (fun cs => DataFrame.mk cs df.rows) ?_
  refine List.map_congr_left (fun p _ => ?_)
  simp [Function.comp, snakeName_idem]

/-! ### Absent-column behaviour of the cleaning primitives (claim C10) -/

theorem idxOf?_get : ∀ (names : List String) (i : Nat) (n : String),
    idxOf? n names = some i → names[i]? = some n
  | [], _, _ => by simp [idxOf?]
  | m :: rest, i, n => by
    intro h
    rw [idxOf?] at h
    by_cases hm : m = n
    · simp [hm] at h
      subst hm h
      simp
    · simp [hm] at h
      rcases h with ⟨j, hj, rfl⟩
      simpa using idxOf?_get rest j n hj

theorem set_same : ∀ (l : List String) (i : Nat) (a : String),
    l[i]? = some a → l.set i a = l
  | [], _, _ => by simp
  | b :: rest, 0, a => by
    intro h
    simp at h
    simp [h]
  | b :: rest, i + 1, a => by
    intro h
    simp at h
    simpa using set_same rest i a h

theorem names_set_col_of_mem {df : DataFrame} {n : String} {i : Nat}
    (h : colIdx df n = some i) (dt : Dtype) (cs : List Cell) :
    (set_col df n dt cs).cols.map (·.1) = df.cols.map (·.1) := by
  unfold set_col
  rw [h]
  simp only [List.map_set]
  exact set_same _ i n (idxOf?_get _ i n h)

theorem colIdx_eq_of_names {df df' : DataFrame}
    (h : df.cols.map (·.1) = df'.cols.map (·.1)) (n : String) :
    colIdx df n = colIdx df' n := by
  unfold colIdx
  rw [h]

theorem hasCol_set_col {df : DataFrame} {n : String} {i : Nat}
    (h : colIdx df n = some i) (dt : Dtype) (cs : List Cell) (m : String) :
    colIdx (set_col df n dt cs) m = colIdx df m :=
  colIdx_eq_of_names (names_set_col_of_mem h dt cs) m

theorem trimGo_error_of_absent :
    ∀ (cols : List String) (df : DataFrame) (c : String), c ∈ cols → ¬ hasCol df c →
      ∃ c', ¬ hasCol df c' ∧ trimGo df cols = .error (.keyError c')
  | [], _, _ => by simp
  | c₀ :: rest, df, c => by
    intro hmem habs
    cases h0 : colIdx df c₀ with
    | none =>
      exact ⟨c₀, by simp [hasCol, h0], by simp [trimGo, h0]⟩
    | some i =>
      simp only [trimGo, h0]
      have hc : c ∈ rest := by
        rcases List.mem_cons.1 hmem with rfl | h
        · exact absurd (by simp [hasCol, h0]) habs
        · exact h
      by_cases hdt : (df.cols.getD i ("", .object)).2 = Dtype.object ∨
          (df.cols.getD i ("", .object)).2 = Dtype.stringDt
      · rw [if_pos hdt]
        have hnames := fun m => hasCol_set_col h0 Dtype.object
          ((df.rows.map (fun r => r.getD i Cell.null)).map trimCell) m
        have habs' : ¬ hasCol (set_col df c₀ .object
            ((df.rows.map (fun r => r.getD i Cell.null)).map trimCell)) c := by
          unfold hasCol
          rw [hnames c]
          exact habs
        rcases trimGo_error_of_absent rest _ c hc habs' with ⟨c', hc', heq⟩
        refine ⟨c', ?_, heq⟩
        unfold hasCol at hc' ⊢
        rw [hnames c'] at hc'
        exact hc'
      · rw [if_neg hdt]
        exact trimGo_error_of_absent rest df c hc habs

/-- Claim C10: with an explicit, non-empty column list containing a
label absent from the frame, `trim_spaces` fails with a key-lookup error
(on an absent label of the list), whereas `standardize_text_columns` and
`convert_datetime_col` first test membership and silently skip the
absent label. -/
theorem C10_trim_raises_others_skip (df : DataFrame) (c : String) (h : ¬ hasCol df c) :
    (∀ cols, c ∈ cols →
      ∃ c', ¬ hasCol df c' ∧ trim_spaces df cols = .error (.keyError c')) ∧
    (∀ rest, standardize_text_columns df (c :: rest) = standardize_text_columns df rest) ∧
    (∀ rest, convert_datetime_col df (c :: rest) = convert_datetime_col df rest) := by
  have hnone : colIdx df c = none := by
    rw [← Option.not_isSome_iff_eq_none]
    exact h
  refine ⟨?_, ?_, ?_⟩
  · intro cols hmem
    cases cols with
    | nil => simp at hmem
    | cons c₀ rest =>
      have := trimGo_error_of_absent (c₀ :: rest) df c hmem h
      simpa [trim_spaces] using this
  · intro rest
    rw [standardize_text_columns, hnone]
  · intro rest
    rw [convert_datetime_col, hnone]

/-- Witness for C10 at a concrete frame: `dfAbsent` has the single
column `a`; the list `["a", "zz"]` makes `trim_spaces` raise a
key-lookup error while the other two primitives skip `"zz"`. -/
theorem C10_witness :
    (∃ c', ¬ hasCol dfAbsent c' ∧
      trim_spaces dfAbsent ["a", "zz"] = .error (.keyError c')) ∧
    standardize_text_columns dfAbsent ["zz"] = standardize_text_columns dfAbsent [] ∧
    convert_datetime_col dfAbsent ["zz"] = convert_datetime_col dfAbsent [] :=
  ⟨(C10_trim_raises_others_skip dfAbsent "zz" (by decide)).1 ["a", "zz"] (by decide),
   (C10_trim_raises_others_skip dfAbsent "zz" (by decide)).2.1 [],
   (C10_trim_raises_others_skip dfAbsent "zz" (by decide)).2.2 []⟩

/-! ### Column plumbing: how `set_col` and `addCols` act on the frame -/

theorem idxOf?_lt {names : List String} {n : String} {i : Nat}
    (h : idxOf? n names = some i) : i < names.length := by
  by_contra hx
  have hg := idxOf?_get names i n h
  rw [List.getElem?_eq_none (by omega)] at hg
  simp at hg

theorem idxOf?_append_some {names : List String} {n m : String} {i : Nat}
    (h : idxOf? n names = some i) : idxOf? n (names ++ [m]) = some i := by
  induction names generalizing i with
  | nil => simp [idxOf?] at h
  | cons a rest ih =>
    rw [idxOf?] at h
    rw [List.cons_append, idxOf?]
    by_cases ha : a = n
    · simpa [ha] using h
    · rw [if_neg ha] at h ⊢
      rcases Option.map_eq_some'.mp h with ⟨j, hj, hji⟩
      rw [ih hj]
      simpa using hji

theorem idxOf?_append_none {names : List String} {n m : String}
    (h : idxOf? n names = none) :
    idxOf? n (names ++ [m]) = if m = n then some names.length else none := by
  induction names with
  | nil => simp [idxOf?]
  | cons a rest ih =>
    rw [idxOf?] at h
    by_cases ha : a = n
    · simp [ha] at h
    · rw [if_neg ha] at h
      simp only [Option.map_eq_none'] at h
      rw [List.cons_append, idxOf?, if_neg ha, ih h]
      by_cases hm : m = n <;> simp [hm]

theorem mem_zipWith_set {i : Nat} :
    ∀ {rows : List Row} {cs : List Cell} {r' : Row},
      r' ∈ List.zipWith (fun r c => r.set i c) rows cs →
      ∃ r, r ∈ rows ∧ ∃ c, r' = r.set i c
  | [], _, _ => by simp
  | _ :: _, [], _ => by simp
  | r :: rows, c :: cs, r' => by
    intro h
    simp only [List.zipWith_cons_cons, List.mem_cons] at h
    rcases h with rfl | h
    · exact ⟨r, by simp, c, rfl⟩
    · rcases mem_zipWith_set h with ⟨r₀, hr₀, c₀, rfl⟩
      exact ⟨r₀, by simp [hr₀], c₀, rfl⟩

theorem mem_zipWith_append :
    ∀ {rows : List Row} {cs : List Cell} {r' : Row},
      r' ∈ List.zipWith (fun r c => r ++ [c]) rows cs →
      ∃ r, r ∈ rows ∧ ∃ c, r' = r ++ [c]
  | [], _, _ => by simp
  | _ :: _, [], _ => by simp
  | r :: rows, c :: cs, r' => by
    intro h
    simp only [List.zipWith_cons_cons, List.mem_cons] at h
    rcases h with rfl | h
    · exact ⟨r, by simp, c, rfl⟩
    · rcases mem_zipWith_append h with ⟨r₀, hr₀, c₀, rfl⟩
      exact ⟨r₀, by simp [hr₀], c₀, rfl⟩

theorem map_getD_zipWith_set_ne {i j : Nat} (hij : i ≠ j) :
    ∀ (rows : List Row) (cs : List Cell), cs.length = rows.length →
    (List.zipWith (fun r c => r.set i c) rows cs).map (fun r => r.getD j Cell.null) =
      rows.map (fun r => r.getD j Cell.null)
  | [], [], _ => by simp
  | [], _ :: _, h => by simp at h
  | _ :: _, [], h => by simp at h
  | r :: rows, c :: cs, h => by
    simp only [List.zipWith_cons_cons, List.map_cons]
    congr 1
    · simp [List.getD_eq_getElem?_getD, List.getElem?_set_ne hij]
    · exact map_getD_zipWith_set_ne hij rows cs (by simpa using h)

theorem map_getD_zipWith_set_self {i : Nat} :
    ∀ (rows : List Row) (cs : List Cell), cs.length = rows.length →
    (∀ r ∈ rows, i < r.length) →
    (List.zipWith (fun r c => r.set i c) rows cs).map (fun r => r.getD i Cell.null) = cs
  | [], [], _, _ => by simp
  | [], _ :: _, h, _ => by simp at h
  | _ :: _, [], h, _ => by simp at h
  | r :: rows, c :: cs, h, hlt => by
    simp only [List.zipWith_cons_cons, List.map_cons]
    congr 1
    · simp [List.getD_eq_getElem?_getD, List.getElem?_set_self (hlt r (by simp))]
    · exact map_getD_zipWith_set_self rows cs (by simpa using h)
        (fun r hr => hlt r (by simp [hr]))

theorem map_getD_zipWith_append_lt {j : Nat} :
    ∀ (rows : List Row) (cs : List Cell), cs.length = rows.length →
    (∀ r ∈ rows, j < r.length) →
    (List.zipWith (fun r c => r ++ [c]) rows cs).map (fun r => r.getD j Cell.null) =
      rows.map (fun r => r.getD j Cell.null)
  | [], [], _, _ => by simp
  | [], _ :: _, h, _ => by simp at h
  | _ :: _, [], h, _ => by simp at h
  | r :: rows, c :: cs, h, hlt => by
    simp only [List.zipWith_cons_cons, List.map_cons]
    congr 1
    · simp [List.getD_eq_getElem?_getD, List.getElem?_append_left (hlt r (by simp))]
    · exact map_getD_zipWith_append_lt rows cs (by simpa using h)
        (fun r hr => hlt r (by simp [hr]))

theorem map_getD_zipWith_append_self {L : Nat} :
    ∀ (rows : List Row) (cs : List Cell), cs.length = rows.length →
    (∀ r ∈ rows, r.length = L) →
    (List.zipWith (fun r c => r ++ [c]) rows cs).map (fun r => r.getD L Cell.null) = cs
  | [], [], _, _ => by simp
  | [], _ :: _, h, _ => by simp at h
  | _ :: _, [], h, _ => by simp at h
  | r :: rows, c :: cs, h, hlen => by
    simp only [List.zipWith_cons_cons, List.map_cons]
    congr 1
    · rw [List.getD_eq_getElem?_getD, ← hlen r (by simp), List.getElem?_concat_length]
      rfl
    · exact map_getD_zipWith_append_self rows cs (by simpa using h)
        (fun r hr => hlen r (by simp [hr]))

theorem length_rows_set_col {df : DataFrame} {n : String} {dt : Dtype} {cs : List Cell}
    (h : cs.length = df.rows.length) :
    (set_col df n dt cs).rows.length = df.rows.length := by
  unfold set_col
  cases colIdx df n <;> simp [h]

theorem rect_set_col {df : DataFrame} {n : String} {dt : Dtype} {cs : List Cell}
    (hrect : Rect df) (h : cs.length = df.rows.length) :
    Rect (set_col df n dt cs) := by
  unfold set_col
  cases hidx : colIdx df n with
  | some i =>
    intro r' hr'
    simp only at hr'
    rcases mem_zipWith_set hr' with ⟨r, hr, c, rfl⟩
    simp [hrect r hr]
  | none =>
    intro r' hr'
    simp only at hr'
    rcases mem_zipWith_append hr' with ⟨r, hr, c, rfl⟩
    simp [hrect r hr]

theorem getColCellsO_set_col_ne {df : DataFrame} {n m : String} {dt : Dtype}
    {cs : List Cell} (hrect : Rect df) (hlen : cs.length = df.rows.length)
    (hnm : n ≠ m) :
    getColCellsO (set_col df n dt cs) m = getColCellsO df m := by
  unfold getColCellsO colIdx set_col
  cases hidx : colIdx df n with
  | some i =>
    have hnames : (df.cols.set i (n, dt)).map (·.1) = df.cols.map (·.1) := by
      simp only [List.map_set]
      exact set_same _ i n (idxOf?_get _ i n hidx)
    simp only [hnames]
    cases hm : idxOf? m (df.cols.map (·.1)) with
    | none => simp
    | some j =>
      have hij : i ≠ j := by
        intro hij
        subst hij
        have h1 := idxOf?_get _ i n hidx
        have h2 := idxOf?_get _ i m hm
        rw [h1] at h2
        exact hnm (by simpa using h2)
      simp only [Option.map_some']
      congr 1
      exact map_getD_zipWith_set_ne hij df.rows cs hlen
  | none =>
    simp only [List.map_append, List.map_cons, List.map_nil]
    cases hm : idxOf? m (df.cols.map (·.1)) with
    | none =>
      rw [idxOf?_append_none hm, if_neg hnm]
      simp
    | some j =>
      rw [idxOf?_append_some hm]
      simp only [Option.map_some']
      congr 1
      have hj : j < (df.cols.map (·.1)).length := idxOf?_lt hm
      exact map_getD_zipWith_append_lt df.rows cs hlen
        (fun r hr => by rw [hrect r hr]; simpa using hj)

theorem getColCellsO_set_col_self {df : DataFrame} {n : String} {dt : Dtype}
    {cs : List Cell} (hrect : Rect df) (hlen : cs.length = df.rows.length) :
    getColCellsO (set_col df n dt cs) n = some cs := by
  unfold getColCellsO colIdx set_col
  cases hidx : colIdx df n with
  | some i =>
    have hnames : (df.cols.set i (n, dt)).map (·.1) = df.cols.map (·.1) := by
      simp only [List.map_set]
      exact set_same _ i n (idxOf?_get _ i n hidx)
    simp only [hnames]
    rw [show idxOf? n (df.cols.map (·.1)) = some i from hidx]
    simp only [Option.map_some']
    congr 1
    have hi : i < (df.cols.map (·.1)).length := idxOf?_lt hidx
    exact map_getD_zipWith_set_self df.rows cs hlen
      (fun r hr => by rw [hrect r hr]; simpa using hi)
  | none =>
    simp only [List.map_append, List.map_cons, List.map_nil]
    have hidx' : idxOf? n (df.cols.map (·.1)) = none := hidx
    rw [idxOf?_append_none hidx', if_pos rfl]
    simp only [Option.map_some']
    congr 1
    have hL : (df.cols.map (·.1)).length = df.cols.length := by simp
    rw [hL]
    exact map_getD_zipWith_append_self df.rows cs hlen (fun r hr => hrect r hr)

theorem addCols_append (df : DataFrame) :
    ∀ (l₁ l₂ : List (String × Dtype × List Cell)),
      addCols df (l₁ ++ l₂) = addCols (addCols df l₁) l₂ := by
  intro l₁
  induction l₁ generalizing df with
  | nil => intro l₂; rfl
  | cons t rest ih =>
    intro l₂
    cases t with
    | mk n p =>
      cases p with
      | mk dt cs => simpa [addCols] using ih (set_col df n dt cs) l₂

theorem length_rows_addCols :
    ∀ (l : List (String × Dtype × List Cell)) (df : DataFrame),
      (∀ t ∈ l, (t.2.2 : List Cell).length = df.rows.length) →
      (addCols df l).rows.length = df.rows.length
  | [], _, _ => rfl
  | (n, dt, cs) :: rest, df, h => by
    have hcs : cs.length = df.rows.length := h (n, dt, cs) (by simp)
    have hlen := @length_rows_set_col df n dt cs hcs
    rw [addCols, length_rows_addCols rest _ (fun t ht => by
      rw [hlen]; exact h t (by simp [ht])), hlen]

theorem rect_addCols :
    ∀ (l : List (String × Dtype × List Cell)) (df : DataFrame), Rect df →
      (∀ t ∈ l, (t.2.2 : List Cell).length = df.rows.length) →
      Rect (addCols df l)
  | [], _, hrect, _ => hrect
  | (n, dt, cs) :: rest, df, hrect, h => by
    have hcs : cs.length = df.rows.length := h (n, dt, cs) (by simp)
    have hlen := @length_rows_set_col df n dt cs hcs
    exact rect_addCols rest _ (rect_set_col hrect hcs) (fun t ht => by
      rw [hlen]; exact h t (by simp [ht]))

theorem getColCellsO_addCols_not_mem :
    ∀ (l : List (String × Dtype × List Cell)) (df : DataFrame) (m : String),
      Rect df → (∀ t ∈ l, (t.2.2 : List Cell).length = df.rows.length) →
      (∀ nm ∈ l.map (·.1), nm ≠ m) →
      getColCellsO (addCols df l) m = getColCellsO df m
  | [], _, _, _, _, _ => rfl
  | (n, dt, cs) :: rest, df, m, hrect, h, hnm => by
    have hcs : cs.length = df.rows.length := h (n, dt, cs) (by simp)
    have hlen := @length_rows_set_col df n dt cs hcs
    rw [addCols,
      getColCellsO_addCols_not_mem rest _ m (rect_set_col hrect hcs)
        (fun t ht => by rw [hlen]; exact h t (by simp [ht]))
        (fun nm hn => hnm nm (by simp [hn])),
      getColCellsO_set_col_ne hrect hcs (hnm n (by simp))]

theorem getColCellsO_addCols_mem (df : DataFrame)
    (l₁ l₂ : List (String × Dtype × List Cell)) (m : String) (dt : Dtype)
    (cs : List Cell) (hrect : Rect df)
    (h : ∀ t ∈ l₁ ++ (m, dt, cs) :: l₂, (t.2.2 : List Cell).length = df.rows.length)
    (hnm : ∀ nm ∈ l₂.map (·.1), nm ≠ m) :
    getColCellsO (addCols df (l₁ ++ (m, dt, cs) :: l₂)) m = some cs := by
  rw [addCols_append]
  have hrect₁ : Rect (addCols df l₁) :=
    rect_addCols l₁ df hrect (fun t ht => h t (by simp [ht]))
  have hlen₁ : (addCols df l₁).rows.length = df.rows.length :=
    length_rows_addCols l₁ df (fun t ht => h t (by simp [ht]))
  have hcs : cs.length = (addCols df l₁).rows.length := by
    rw [hlen₁]
    exact h (m, dt, cs) (by simp)
  rw [addCols]
  have hrect₂ : Rect (set_col (addCols df l₁) m dt cs) := rect_set_col hrect₁ hcs
  have hlen₂ := @length_rows_set_col (addCols df l₁) m dt cs hcs
  rw [getColCellsO_addCols_not_mem l₂ _ m hrect₂
      (fun t ht => by
        rw [hlen₂, hlen₁]
        exact h t (by simp [ht]))
      hnm]
  exact getColCellsO_set_col_self hrect₁ hcs

/-! ### Inversion of a successful pipeline run -/

theorem afterSort_ok_inv {df out : DataFrame} (h : afterSort df = .ok out) :
    ∃ p95 w95 p97 w97 pdi wdi pdc,
      getColE df "ron95_price" = .ok p95 ∧ diff_col p95 = .ok w95 ∧
      getColE df "ron97_price" = .ok p97 ∧ diff_col p97 = .ok w97 ∧
      getColE df "diesel_price" = .ok pdi ∧ diff_col pdi = .ok wdi ∧
      getColE df "price_date" = .ok pdc ∧
      df.rows.isEmpty = false ∧
      out = addCols df
        [("ron95_week_diff", .float64, w95),
         ("ron97_week_diff", .float64, w97),
         ("diesel_week_diff", .float64, wdi),
         ("ron95_4wk_avg", .float64, rolling4 p95),
         ("ron97_4wk_avg", .float64, rolling4 p97),
         ("diesel_4wk_avg", .float64, rolling4 pdi),
         ("year", .int64, yearCol pdc),
         ("month", .int64, monthCol pdc),
         ("ron95_cumulative_change", .float64, cumulative p95),
         ("ron97_cumulative_change", .float64, cumulative p97),
         ("diesel_cumulative_change", .float64, cumulative pdi),
         ("ron95_price_increase", .int64, priceIncrease w95),
         ("ron97_price_increase", .int64, priceIncrease w97),
         ("diesel_price_increase", .int64, priceIncrease wdi),
         ("ron95_pct_change", .float64, pct_change_col p95),
         ("ron97_pct_change", .float64, pct_change_col p97),
         ("diesel_pct_change", .float64, pct_change_col pdi),
         ("week", .uint32, weekCol pdc)] := by
  unfold afterSort at h
  split at h
  · exact Except.noConfusion h
  rename_i p95 hx1
  split at h
  · exact Except.noConfusion h
  rename_i w95 hx2
  split at h
  · exact Except.noConfusion h
  rename_i p97 hx3
  split at h
  · exact Except.noConfusion h
  rename_i w97 hx4
  split at h
  · exact Except.noConfusion h
  rename_i pdi hx5
  split at h
  · exact Except.noConfusion h
  rename_i wdi hx6
  split at h
  · exact Except.noConfusion h
  rename_i pdc hx7
  split at h
  · exact Except.noConfusion h
  rename_i hempty
  exact ⟨p95, w95, p97, w97, pdi, wdi, pdc, hx1, hx2, hx3, hx4, hx5, hx6, hx7,
    by simpa using hempty, (Except.ok.inj h).symm⟩

theorem transform_ok_inv {self out : DataFrame}
    (h : transform_fuel_data self = .ok out) :
    ∃ pidx prows,
      colIdx (rename_columns self) "price_date" = some pidx ∧
      mapE (parseRowDate pidx) (rename_columns self).rows = .ok prows ∧
      afterSort ⟨(rename_columns self).cols.set pidx ("price_date", .datetime),
                 List.insertionSort (rowLe pidx) prows⟩ = .ok out := by
  unfold transform_fuel_data at h
  split at h
  · exact Except.noConfusion h
  rename_i pidx hp
  split at h
  · exact Except.noConfusion h
  rename_i prows hm
  exact ⟨pidx, prows, hp, hm, h⟩

theorem getColE_ok_inv {df : DataFrame} {n : String} {p : List Cell}
    (h : getColE df n = .ok p) :
    ∃ i, colIdx df n = some i ∧
      p = df.rows.map (fun r => r.getD i Cell.null) ∧ p.length = df.rows.length := by
  unfold getColE at h
  split at h
  · rename_i i hi
    exact ⟨i, hi, (Except.ok.inj h).symm, by
      rw [(Except.ok.inj h).symm]; simp⟩
  · exact Except.noConfusion h

theorem diff_col_ok_inv {xs w : List Cell} (h : diff_col xs = .ok w) :
    w = diffList xs ∧ (xs.length ≤ 1 ∨ ∀ c ∈ xs, isNumCell c = true) := by
  unfold diff_col at h
  split at h
  · exact ⟨(Except.ok.inj h).symm, Or.inl (by assumption)⟩
  split at h
  · refine ⟨(Except.ok.inj h).symm, Or.inr ?_⟩
    rename_i hall
    simpa using List.all_eq_true.mp hall
  · exact Except.noConfusion h

theorem mapE_ok_length {f : α → Except PdError β} :
    ∀ {l : List α} {l' : List β}, mapE f l = .ok l' → l'.length = l.length
  | [], l', h => by
    rw [mapE] at h
    rw [← Except.ok.inj h]
    rfl
  | a :: l, l', h => by
    rw [mapE] at h
    split at h
    · exact Except.noConfusion h
    split at h
    · exact Except.noConfusion h
    rename_i bs hbs
    rw [← Except.ok.inj h]
    simpa using mapE_ok_length hbs

theorem mapE_ok_mem {f : α → Except PdError β} :
    ∀ {l : List α} {l' : List β}, mapE f l = .ok l' →
      ∀ b ∈ l', ∃ a ∈ l, f a = .ok b
  | [], l', h => by
    rw [mapE] at h
    rw [← Except.ok.inj h]
    simp
  | a :: l, l', h => by
    rw [mapE] at h
    split at h
    · exact Except.noConfusion h
    rename_i b hb
    split at h
    · exact Except.noConfusion h
    rename_i bs hbs
    rw [← Except.ok.inj h]
    intro b' hb'
    rcases List.mem_cons.1 hb' with rfl | hmem
    · exact ⟨a, by simp, hb⟩
    · rcases mapE_ok_mem hbs b' hmem with ⟨a', ha', hfa⟩
      exact ⟨a', by simp [ha'], hfa⟩

theorem parseRowDate_ok_inv {i : Nat} {r b : Row} (h : parseRowDate i r = .ok b) :
    ∃ dt, parseDateCell (r.getD i Cell.null) = .ok dt ∧ b = r.set i (dateCellOf dt) := by
  unfold parseRowDate at h
  split at h
  · exact Except.noConfusion h
  rename_i dt hdt
  exact ⟨dt, hdt, (Except.ok.inj h).symm⟩

theorem rect_rename {self : DataFrame} (h : Rect self) : Rect (rename_columns self) := by
  intro r hr
  unfold rename_columns at hr ⊢
  simpa using h r hr

theorem names_set_entry {cols : List (String × Dtype)} {pidx : Nat} {n : String}
    {dt : Dtype} (h : idxOf? n (cols.map (·.1)) = some pidx) :
    (cols.set pidx (n, dt)).map (·.1) = cols.map (·.1) := by
  simp only [List.map_set]
  exact set_same _ _ _ (idxOf?_get _ _ _ h)

theorem rect_sorted_frame {self : DataFrame} (hrect : Rect self) {pidx : Nat}
    {prows : List Row}
    (hp : colIdx (rename_columns self) "price_date" = some pidx)
    (hm : mapE (parseRowDate pidx) (rename_columns self).rows = .ok prows) :
    Rect ⟨(rename_columns self).cols.set pidx ("price_date", .datetime),
          List.insertionSort (rowLe pidx) prows⟩ := by
  intro r hr
  simp only [List.length_set]
  have hr' : r ∈ prows :=
    (List.perm_insertionSort (rowLe pidx) prows).mem_iff.mp hr
  rcases mapE_ok_mem hm r hr' with ⟨r₀, hr₀, hok⟩
  rcases parseRowDate_ok_inv hok with ⟨dt, _, rfl⟩
  simpa using rect_rename hrect r₀ hr₀

/-- Claim C4 (corrected): a missing optional fuel column is an error,
not a silently-degraded success.  Whenever `transform_fuel_data`
succeeds, all of `price_date`, `ron95_price`, `ron97_price` and
`diesel_price` are present after renaming — derived columns are never
"simply omitted" for an absent fuel; the concrete counterexample shows
the `KeyError` raised instead. -/
theorem C4_amended (df out : DataFrame) (h : transform_fuel_data df = .ok out) :
    hasCol (rename_columns df) "price_date" ∧
    hasCol (rename_columns df) "ron95_price" ∧
    hasCol (rename_columns df) "ron97_price" ∧
    hasCol (rename_columns df) "diesel_price" := by
  obtain ⟨pidx, prows, hp, hm, hA⟩ := transform_ok_inv h
  obtain ⟨p95, w95, p97, w97, pdi, wdi, pdc, h1, _, h3, _, h5, _, _, _, _⟩ :=
    afterSort_ok_inv hA
  have hnames : ((rename_columns df).cols.set pidx ("price_date", .datetime)).map (·.1)
      = (rename_columns df).cols.map (·.1) := names_set_entry hp
  have hmove : ∀ n : String,
      colIdx ⟨(rename_columns df).cols.set pidx ("price_date", .datetime),
              List.insertionSort (rowLe pidx) prows⟩ n
        = colIdx (rename_columns df) n := by
    intro n
    unfold colIdx
    simp only
    rw [hnames]
  refine ⟨by simp [hasCol, hp], ?_, ?_, ?_⟩
  · rcases getColE_ok_inv h1 with ⟨i, hi, _, _⟩
    rw [hmove "ron95_price"] at hi
    simp [hasCol, hi]
  · rcases getColE_ok_inv h3 with ⟨i, hi, _, _⟩
    rw [hmove "ron97_price"] at hi
    simp [hasCol, hi]
  · rcases getColE_ok_inv h5 with ⟨i, hi, _, _⟩
    rw [hmove "diesel_price"] at hi
    simp [hasCol, hi]

/-- Witness for C4 at a concrete successful run. -/
theorem C4_witness :
    hasCol (rename_columns dfPresence) "price_date" ∧
    hasCol (rename_columns dfPresence) "ron95_price" ∧
    hasCol (rename_columns dfPresence) "ron97_price" ∧
    hasCol (rename_columns dfPresence) "diesel_price" :=
  C4_amended dfPresence (okOr (transform_fuel_data dfPresence)) (by decide)

/-! ### Derived-column lengths and pointwise facts -/

theorem length_diffList (xs : List Cell) : (diffList xs).length = xs.length := by
  simp [diffList]

theorem length_rolling4 (xs : List Cell) : (rolling4 xs).length = xs.length := by
  simp [rolling4]

theorem length_pct_change_col (xs : List Cell) :
    (pct_change_col xs).length = xs.length := by
  simp [pct_change_col]

theorem length_yearCol (xs : List Cell) : (yearCol xs).length = xs.length := by
  simp [yearCol]

theorem length_monthCol (xs : List Cell) : (monthCol xs).length = xs.length := by
  simp [monthCol]

theorem length_weekCol (xs : List Cell) : (weekCol xs).length = xs.length := by
  simp [weekCol]

theorem length_cumulative (xs : List Cell) : (cumulative xs).length = xs.length := by
  simp [cumulative]

theorem length_priceIncrease (xs : List Cell) :
    (priceIncrease xs).length = xs.length := by
  simp [priceIncrease]

theorem range_map_getD {n : Nat} {f : Nat → Cell} {i : Nat} (hi : i < n) :
    ((List.range n).map f).getD i Cell.null = f i := by
  rw [List.getD_eq_getElem?_getD, List.getElem?_map, List.getElem?_range hi]
  rfl

theorem range_map_getD_ge {n : Nat} {f : Nat → Cell} {i : Nat} (hi : n ≤ i) :
    ((List.range n).map f).getD i Cell.null = Cell.null := by
  rw [List.getD_eq_getElem?_getD, List.getElem?_eq_none (by simpa using hi)]
  rfl

theorem getD_map_toQ {p : List Cell} {i : Nat} (hi : i < p.length) :
    (p.map toQ).getD i none = toQ (p.getD i Cell.null) := by
  rw [List.getD_eq_getElem?_getD, List.getD_eq_getElem?_getD, List.getElem?_map]
  cases hp : p[i]? with
  | none =>
    rw [List.getElem?_eq_none_iff] at hp
    omega
  | some v => rfl

theorem rolling4_eq_mean {p : List Cell} {i : Nat} (hi : i < p.length) (h3 : 3 ≤ i)
    {a b c d : ℚ}
    (ha : toQ (p.getD (i - 3) Cell.null) = some a)
    (hb : toQ (p.getD (i - 2) Cell.null) = some b)
    (hc : toQ (p.getD (i - 1) Cell.null) = some c)
    (hd : toQ (p.getD i Cell.null) = some d) :
    (rolling4 p).getD i Cell.null = .float ((a + b + c + d) / 4) := by
  unfold rolling4
  rw [range_map_getD hi, if_pos h3, ha, hb, hc, hd]

theorem rolling4_null {p : List Cell} {i : Nat}
    (h : i < 3 ∨ ∃ j, i - 3 ≤ j ∧ j ≤ i ∧ toQ (p.getD j Cell.null) = none) :
    (rolling4 p).getD i Cell.null = Cell.null := by
  by_cases hip : i < p.length
  · unfold rolling4
    rw [range_map_getD hip]
    by_cases h3 : 3 ≤ i
    · rw [if_pos h3]
      rcases h with h | ⟨j, hj1, hj2, hnone⟩
      · omega
      · have hj : j = i - 3 ∨ j = i - 2 ∨ j = i - 1 ∨ j = i := by omega
        split
        · rename_i a b c d ha hb hc hd
          rcases hj with rfl | rfl | rfl | rfl
          · rw [hnone] at ha; exact Option.noConfusion ha
          · rw [hnone] at hb; exact Option.noConfusion hb
          · rw [hnone] at hc; exact Option.noConfusion hc
          · rw [hnone] at hd; exact Option.noConfusion hd
        · rfl
    · rw [if_neg h3]
  · unfold rolling4
    exact range_map_getD_ge (by omega)

theorem rolling4_all_null_of_short {p : List Cell} (h : p.length < 4) (i : Nat) :
    (rolling4 p).getD i Cell.null = Cell.null := by
  by_cases hip : i < p.length
  · exact rolling4_null (Or.inl (by omega))
  · unfold rolling4
    exact range_map_getD_ge (by omega)

theorem ffill_all_some :
    ∀ {l : List (Option ℚ)}, (∀ x ∈ l, x.isSome = true) → ∀ prev, ffill l prev = l
  | [], _, _ => rfl
  | some q :: rest, h, prev => by
    rw [ffill, ffill_all_some (fun x hx => h x (by simp [hx])) (some q)]
  | none :: rest, h, prev => by
    have := h none (by simp)
    simp at this

theorem pct_getD_zero (p : List Cell) :
    (pct_change_col p).getD 0 Cell.null = Cell.null := by
  cases p with
  | nil => rfl
  | cons c rest =>
    unfold pct_change_col
    rw [range_map_getD (by simp)]
    simp

theorem pct_getD_pos {p : List Cell} {i : Nat}
    (hnum : ∀ c ∈ p, isNumCell c = true) (h1 : 1 ≤ i) (hi : i < p.length)
    {a b : ℚ}
    (ha : toQ (p.getD i Cell.null) = some a)
    (hb : toQ (p.getD (i - 1) Cell.null) = some b) :
    (pct_change_col p).getD i Cell.null =
      (if b = 0 then (if a = 0 then Cell.null else Cell.inf (decide (a < 0)))
       else Cell.float (100 * (a / b - 1))) := by
  have hsome : ∀ x ∈ p.map toQ, x.isSome = true := by
    intro x hx
    rcases List.mem_map.1 hx with ⟨c, hc, rfl⟩
    simpa [isNumCell] using hnum c hc
  unfold pct_change_col
  rw [range_map_getD hi]
  rw [if_neg (by omega)]
  rw [ffill_all_some hsome none, getD_map_toQ hi, getD_map_toQ (by omega), ha, hb]

/-- Column-level content of every successful `transform_fuel_data` run:
the three price columns of the output are exactly the sorted prices, the
rolling-average and pct-change columns are the corresponding derived
functions of them, prices of a table with at least two rows are all
numeric (a null price makes the object-dtype `diff` subtraction raise
instead), and all of these columns share the output row count, which is
positive. -/
theorem transform_ok_cols {df out : DataFrame} (hrect : Rect df)
    (h : transform_fuel_data df = .ok out) :
    ∃ p95 p97 pdi,
      getColCellsO out "ron95_price" = some p95 ∧
      getColCellsO out "ron97_price" = some p97 ∧
      getColCellsO out "diesel_price" = some pdi ∧
      getColCellsO out "ron95_4wk_avg" = some (rolling4 p95) ∧
      getColCellsO out "ron97_4wk_avg" = some (rolling4 p97) ∧
      getColCellsO out "diesel_4wk_avg" = some (rolling4 pdi) ∧
      getColCellsO out "ron95_pct_change" = some (pct_change_col p95) ∧
      getColCellsO out "ron97_pct_change" = some (pct_change_col p97) ∧
      getColCellsO out "diesel_pct_change" = some (pct_change_col pdi) ∧
      (2 ≤ p95.length → ∀ c ∈ p95, isNumCell c = true) ∧
      (2 ≤ p97.length → ∀ c ∈ p97, isNumCell c = true) ∧
      (2 ≤ pdi.length → ∀ c ∈ pdi, isNumCell c = true) ∧
      p95.length = out.rows.length ∧
      p97.length = out.rows.length ∧
      pdi.length = out.rows.length ∧
      1 ≤ out.rows.length := by
  obtain ⟨pidx, prows, hp, hm, hA⟩ := transform_ok_inv h
  have hrectS := rect_sorted_frame hrect hp hm
  obtain ⟨p95, w95, p97, w97, pdi, wdi, pdc, h1, h2, h3, h4, h5, h6, h7, hne, hout⟩ :=
    afterSort_ok_inv hA
  set dfS : DataFrame :=
    ⟨(rename_columns df).cols.set pidx ("price_date", .datetime),
     List.insertionSort (rowLe pidx) prows⟩ with hdfS
  obtain ⟨i95, hi95, hp95, hl95⟩ := getColE_ok_inv h1
  obtain ⟨i97, hi97, hp97, hl97⟩ := getColE_ok_inv h3
  obtain ⟨idi, hidi, hpdi, hldi⟩ := getColE_ok_inv h5
  obtain ⟨idc, hidc, hpdc, hldc⟩ := getColE_ok_inv h7
  obtain ⟨hw95, hn95⟩ := diff_col_ok_inv h2
  obtain ⟨hw97, hn97⟩ := diff_col_ok_inv h4
  obtain ⟨hwdi, hndi⟩ := diff_col_ok_inv h6
  subst hw95 hw97 hwdi
  have hfit : ∀ t ∈
      [(("ron95_week_diff" : String), Dtype.float64, diffList p95),
       ("ron97_week_diff", .float64, diffList p97),
       ("diesel_week_diff", .float64, diffList pdi),
       ("ron95_4wk_avg", .float64, rolling4 p95),
       ("ron97_4wk_avg", .float64, rolling4 p97),
       ("diesel_4wk_avg", .float64, rolling4 pdi),
       ("year", .int64, yearCol pdc),
       ("month", .int64, monthCol pdc),
       ("ron95_cumulative_change", .float64, cumulative p95),
       ("ron97_cumulative_change", .float64, cumulative p97),
       ("diesel_cumulative_change", .float64, cumulative pdi),
       ("ron95_price_increase", .int64, priceIncrease (diffList p95)),
       ("ron97_price_increase", .int64, priceIncrease (diffList p97)),
       ("diesel_price_increase", .int64, priceIncrease (diffList pdi)),
       ("ron95_pct_change", .float64, pct_change_col p95),
       ("ron97_pct_change", .float64, pct_change_col p97),
       ("diesel_pct_change", .float64, pct_change_col pdi),
       ("week", .uint32, weekCol pdc)], (t.2.2 : List Cell).length = dfS.rows.length := by
    intro t ht
    simp only [List.mem_cons, List.not_mem_nil, or_false] at ht
    rcases ht with rfl | rfl | rfl | rfl | rfl | rfl | rfl | rfl | rfl | rfl | rfl |
      rfl | rfl | rfl | rfl | rfl | rfl | rfl <;>
      simp [length_diffList, length_rolling4, length_pct_change_col, length_yearCol,
        length_monthCol, length_weekCol, length_cumulative, length_priceIncrease,
        hl95, hl97, hldi, hldc]
  have hlout : out.rows.length = dfS.rows.length := by
    rw [hout]
    exact length_rows_addCols _ _ hfit
  have hget95 : getColCellsO out "ron95_price" = some p95 := by
    rw [hout, getColCellsO_addCols_not_mem _ _ _ hrectS hfit
      (by decide : ∀ nm ∈ (["ron95_week_diff", "ron97_week_diff", "diesel_week_diff", "ron95_4wk_avg", "ron97_4wk_avg", "diesel_4wk_avg", "year", "month", "ron95_cumulative_change", "ron97_cumulative_change", "diesel_cumulative_change", "ron95_price_increase", "ron97_price_increase", "diesel_price_increase", "ron95_pct_change", "ron97_pct_change", "diesel_pct_change", "week"] : List String), nm ≠ "ron95_price")]
    unfold getColCellsO
    rw [hi95, hp95]
    rfl
  have hget97 : getColCellsO out "ron97_price" = some p97 := by
    rw [hout, getColCellsO_addCols_not_mem _ _ _ hrectS hfit
      (by decide : ∀ nm ∈ (["ron95_week_diff", "ron97_week_diff", "diesel_week_diff", "ron95_4wk_avg", "ron97_4wk_avg", "diesel_4wk_avg", "year", "month", "ron95_cumulative_change", "ron97_cumulative_change", "diesel_cumulative_change", "ron95_price_increase", "ron97_price_increase", "diesel_price_increase", "ron95_pct_change", "ron97_pct_change", "diesel_pct_change", "week"] : List String), nm ≠ "ron97_price")]
    unfold getColCellsO
    rw [hi97, hp97]
    rfl
  have hgetdi : getColCellsO out "diesel_price" = some pdi := by
    rw [hout, getColCellsO_addCols_not_mem _ _ _ hrectS hfit
      (by decide : ∀ nm ∈ (["ron95_week_diff", "ron97_week_diff", "diesel_week_diff", "ron95_4wk_avg", "ron97_4wk_avg", "diesel_4wk_avg", "year", "month", "ron95_cumulative_change", "ron97_cumulative_change", "diesel_cumulative_change", "ron95_price_increase", "ron97_price_increase", "diesel_price_increase", "ron95_pct_change", "ron97_pct_change", "diesel_pct_change", "week"] : List String), nm ≠ "diesel_price")]
    unfold getColCellsO
    rw [hidi, hpdi]
    rfl
  have hgeta95 : getColCellsO out "ron95_4wk_avg" = some (rolling4 p95) := by
    rw [hout]
    exact getColCellsO_addCols_mem dfS
      [("ron95_week_diff", .float64, diffList p95),
       ("ron97_week_diff", .float64, diffList p97),
       ("diesel_week_diff", .float64, diffList pdi)] _ _ _ _ hrectS hfit
      (by decide : ∀ nm ∈ (["ron97_4wk_avg", "diesel_4wk_avg", "year", "month", "ron95_cumulative_change", "ron97_cumulative_change", "diesel_cumulative_change", "ron95_price_increase", "ron97_price_increase", "diesel_price_increase", "ron95_pct_change", "ron97_pct_change", "diesel_pct_change", "week"] : List String), nm ≠ "ron95_4wk_avg")
  have hgeta97 : getColCellsO out "ron97_4wk_avg" = some (rolling4 p97) := by
    rw [hout]
    exact getColCellsO_addCols_mem dfS
      [("ron95_week_diff", .float64, diffList p95),
       ("ron97_week_diff", .float64, diffList p97),
       ("diesel_week_diff", .float64, diffList pdi),
       ("ron95_4wk_avg", .float64, rolling4 p95)] _ _ _ _ hrectS hfit
      (by decide : ∀ nm ∈ (["diesel_4wk_avg", "year", "month", "ron95_cumulative_change", "ron97_cumulative_change", "diesel_cumulative_change", "ron95_price_increase", "ron97_price_increase", "diesel_price_increase", "ron95_pct_change", "ron97_pct_change", "diesel_pct_change", "week"] : List String), nm ≠ "ron97_4wk_avg")
  have hgetadi : getColCellsO out "diesel_4wk_avg" = some (rolling4 pdi) := by
    rw [hout]
    exact getColCellsO_addCols_mem dfS
      [("ron95_week_diff", .float64, diffList p95),
       ("ron97_week_diff", .float64, diffList p97),
       ("diesel_week_diff", .float64, diffList pdi),
       ("ron95_4wk_avg", .float64, rolling4 p95),
       ("ron97_4wk_avg", .float64, rolling4 p97)] _ _ _ _ hrectS hfit
      (by decide : ∀ nm ∈ (["year", "month", "ron95_cumulative_change", "ron97_cumulative_change", "diesel_cumulative_change", "ron95_price_increase", "ron97_price_increase", "diesel_price_increase", "ron95_pct_change", "ron97_pct_change", "diesel_pct_change", "week"] : List String), nm ≠ "diesel_4wk_avg")
  have hgetg95 : getColCellsO out "ron95_pct_change" = some (pct_change_col p95) := by
    rw [hout]
    exact getColCellsO_addCols_mem dfS
      [("ron95_week_diff", .float64, diffList p95),
       ("ron97_week_diff", .float64, diffList p97),
       ("diesel_week_diff", .float64, diffList pdi),
       ("ron95_4wk_avg", .float64, rolling4 p95),
       ("ron97_4wk_avg", .float64, rolling4 p97),
       ("diesel_4wk_avg", .float64, rolling4 pdi),
       ("year", .int64, yearCol pdc),
       ("month", .int64, monthCol pdc),
       ("ron95_cumulative_change", .float64, cumulative p95),
       ("ron97_cumulative_change", .float64, cumulative p97),
       ("diesel_cumulative_change", .float64, cumulative pdi),
       ("ron95_price_increase", .int64, priceIncrease (diffList p95)),
       ("ron97_price_increase", .int64, priceIncrease (diffList p97)),
       ("diesel_price_increase", .int64, priceIncrease (diffList pdi))]
      _ _ _ _ hrectS hfit
      (by decide : ∀ nm ∈ (["ron97_pct_change", "diesel_pct_change", "week"] : List String), nm ≠ "ron95_pct_change")
  have hgetg97 : getColCellsO out "ron97_pct_change" = some (pct_change_col p97) := by
    rw [hout]
    exact getColCellsO_addCols_mem dfS
      [("ron95_week_diff", .float64, diffList p95),
       ("ron97_week_diff", .float64, diffList p97),
       ("diesel_week_diff", .float64, diffList pdi),
       ("ron95_4wk_avg", .float64, rolling4 p95),
       ("ron97_4wk_avg", .float64, rolling4 p97),
       ("diesel_4wk_avg", .float64, rolling4 pdi),
       ("year", .int64, yearCol pdc),
       ("month", .int64, monthCol pdc),
       ("ron95_cumulative_change", .float64, cumulative p95),
       ("ron97_cumulative_change", .float64, cumulative p97),
       ("diesel_cumulative_change", .float64, cumulative pdi),
       ("ron95_price_increase", .int64, priceIncrease (diffList p95)),
       ("ron97_price_increase", .int64, priceIncrease (diffList p97)),
       ("diesel_price_increase", .int64, priceIncrease (diffList pdi)),
       ("ron95_pct_change", .float64, pct_change_col p95)]
      _ _ _ _ hrectS hfit
      (by decide : ∀ nm ∈ (["diesel_pct_change", "week"] : List String), nm ≠ "ron97_pct_change")
  have hgetgdi : getColCellsO out "diesel_pct_change" = some (pct_change_col pdi) := by
    rw [hout]
    exact getColCellsO_addCols_mem dfS
      [("ron95_week_diff", .float64, diffList p95),
       ("ron97_week_diff", .float64, diffList p97),
       ("diesel_week_diff", .float64, diffList pdi),
       ("ron95_4wk_avg", .float64, rolling4 p95),
       ("ron97_4wk_avg", .float64, rolling4 p97),
       ("diesel_4wk_avg", .float64, rolling4 pdi),
       ("year", .int64, yearCol pdc),
       ("month", .int64, monthCol pdc),
       ("ron95_cumulative_change", .float64, cumulative p95),
       ("ron97_cumulative_change", .float64, cumulative p97),
       ("diesel_cumulative_change", .float64, cumulative pdi),
       ("ron95_price_increase", .int64, priceIncrease (diffList p95)),
       ("ron97_price_increase", .int64, priceIncrease (diffList p97)),
       ("diesel_price_increase", .int64, priceIncrease (diffList pdi)),
       ("ron95_pct_change", .float64, pct_change_col p95),
       ("ron97_pct_change", .float64, pct_change_col p97)]
      _ _ _ _ hrectS hfit
      (by decide : ∀ nm ∈ (["week"] : List String), nm ≠ "diesel_pct_change")
  have hnum : ∀ (p : List Cell), (p.length ≤ 1 ∨ ∀ c ∈ p, isNumCell c = true) →
      2 ≤ p.length → ∀ c ∈ p, isNumCell c = true := by
    intro p hor h2
    rcases hor with hle | hall
    · omega
    · exact hall
  refine ⟨p95, p97, pdi, hget95, hget97, hgetdi, hgeta95, hgeta97, hgetadi,
    hgetg95, hgetg97, hgetgdi, hnum p95 hn95, hnum p97 hn97, hnum pdi hndi,
    by rw [hlout, hl95], by rw [hlout, hl97], by rw [hlout, hldi], ?_⟩
  rw [hlout]
  have hne' : dfS.rows.isEmpty = false := hne
  cases hrows : dfS.rows with
  | nil => rw [hrows] at hne'; simp at hne'
  | cons a l => simp

/-- Claim C6: in every produced output, for each fuel, the `*_4wk_avg`
cell at row i is the mean of the four prices `price[i-3..i]` exactly
when all four are non-null numbers, and null otherwise — in particular
null for every i < 3, so a table with fewer than 4 rows has every
`*_4wk_avg` cell null. -/
theorem C6_rolling_window (df out : DataFrame) (hrect : Rect df)
    (h : transform_fuel_data df = .ok out) (f : String) (hf : f ∈ fuels) :
    ∃ p, getColCellsO out (f ++ "_price") = some p ∧
      getColCellsO out (f ++ "_4wk_avg") = some (rolling4 p) ∧
      p.length = out.rows.length ∧
      (∀ i, 3 ≤ i → i < p.length → ∀ a b c d : ℚ,
        toQ (p.getD (i - 3) Cell.null) = some a →
        toQ (p.getD (i - 2) Cell.null) = some b →
        toQ (p.getD (i - 1) Cell.null) = some c →
        toQ (p.getD i Cell.null) = some d →
        (rolling4 p).getD i Cell.null = .float ((a + b + c + d) / 4)) ∧
      (∀ i, (i < 3 ∨ ∃ j, i - 3 ≤ j ∧ j ≤ i ∧ toQ (p.getD j Cell.null) = none) →
        (rolling4 p).getD i Cell.null = Cell.null) ∧
      (out.rows.length < 4 → ∀ i, (rolling4 p).getD i Cell.null = Cell.null) := by
  obtain ⟨p95, p97, pdi, hg95, hg97, hgdi, ha95, ha97, hadi, _, _, _, _, _, _,
    hl95, hl97, hldi, _⟩ := transform_ok_cols hrect h
  have hfc : f = "ron95" ∨ f = "ron97" ∨ f = "diesel" := by simpa [fuels] using hf
  rcases hfc with rfl | rfl | rfl
  · exact ⟨p95, hg95, ha95, hl95,
      fun i h3 hi a b c d ha hb hc hd => rolling4_eq_mean hi h3 ha hb hc hd,
      fun i hcase => rolling4_null hcase,
      fun hlt i => rolling4_all_null_of_short (by omega) i⟩
  · exact ⟨p97, hg97, ha97, hl97,
      fun i h3 hi a b c d ha hb hc hd => rolling4_eq_mean hi h3 ha hb hc hd,
      fun i hcase => rolling4_null hcase,
      fun hlt i => rolling4_all_null_of_short (by omega) i⟩
  · exact ⟨pdi, hgdi, hadi, hldi,
      fun i h3 hi a b c d ha hb hc hd => rolling4_eq_mean hi h3 ha hb hc hd,
      fun i hcase => rolling4_null hcase,
      fun hlt i => rolling4_all_null_of_short (by omega) i⟩

/-- Witness for C6 at a concrete five-row run. -/
theorem C6_witness :
    ∃ p, getColCellsO (okOr (transform_fuel_data dfRolling)) ("ron95" ++ "_price")
        = some p ∧
      getColCellsO (okOr (transform_fuel_data dfRolling)) ("ron95" ++ "_4wk_avg")
        = some (rolling4 p) ∧
      p.length = (okOr (transform_fuel_data dfRolling)).rows.length ∧
      (∀ i, 3 ≤ i → i < p.length → ∀ a b c d : ℚ,
        toQ (p.getD (i - 3) Cell.null) = some a →
        toQ (p.getD (i - 2) Cell.null) = some b →
        toQ (p.getD (i - 1) Cell.null) = some c →
        toQ (p.getD i Cell.null) = some d →
        (rolling4 p).getD i Cell.null = .float ((a + b + c + d) / 4)) ∧
      (∀ i, (i < 3 ∨ ∃ j, i - 3 ≤ j ∧ j ≤ i ∧ toQ (p.getD j Cell.null) = none) →
        (rolling4 p).getD i Cell.null = Cell.null) ∧
      ((okOr (transform_fuel_data dfRolling)).rows.length < 4 →
        ∀ i, (rolling4 p).getD i Cell.null = Cell.null) :=
  C6_rolling_window dfRolling (okOr (transform_fuel_data dfRolling))
    (by decide) (by decide) "ron95" (by decide)

/-- Claim C2 (corrected): in every produced output, for each fuel,
`pct_change[0]` is null and for i ≥ 1 the cell equals
`(price[i] - price[i-1]) / price[i-1] * 100` whenever `price[i-1]` is
nonzero; when `price[i-1]` is zero the cell is null only if `price[i]`
is also zero and is a signed infinity otherwise (float64 division), not
null as claimed; and the claimed null-propagation case cannot arise,
because a table of two or more rows with any null price makes the
transform raise a `TypeError` instead of producing output. -/
theorem C2_pct_change (df out : DataFrame) (hrect : Rect df)
    (h : transform_fuel_data df = .ok out) (f : String) (hf : f ∈ fuels) :
    ∃ p, getColCellsO out (f ++ "_price") = some p ∧
      getColCellsO out (f ++ "_pct_change") = some (pct_change_col p) ∧
      (2 ≤ p.length → ∀ c ∈ p, isNumCell c = true) ∧
      (pct_change_col p).getD 0 Cell.null = Cell.null ∧
      (∀ i, 1 ≤ i → i < p.length → ∀ a b : ℚ,
        toQ (p.getD i Cell.null) = some a →
        toQ (p.getD (i - 1) Cell.null) = some b →
        (b ≠ 0 → (pct_change_col p).getD i Cell.null = .float ((a - b) / b * 100)) ∧
        (b = 0 → a = 0 → (pct_change_col p).getD i Cell.null = Cell.null) ∧
        (b = 0 → a ≠ 0 →
          (pct_change_col p).getD i Cell.null = .inf (decide (a < 0)))) := by
  obtain ⟨p95, p97, pdi, hg95, hg97, hgdi, _, _, _, hc95, hc97, hcdi,
    hn95, hn97, hndi, hl95, hl97, hldi, _⟩ := transform_ok_cols hrect h
  have hfc : f = "ron95" ∨ f = "ron97" ∨ f = "diesel" := by simpa [fuels] using hf
  have main : ∀ (p : List Cell), (2 ≤ p.length → ∀ c ∈ p, isNumCell c = true) →
      (pct_change_col p).getD 0 Cell.null = Cell.null ∧
      (∀ i, 1 ≤ i → i < p.length → ∀ a b : ℚ,
        toQ (p.getD i Cell.null) = some a →
        toQ (p.getD (i - 1) Cell.null) = some b →
        (b ≠ 0 → (pct_change_col p).getD i Cell.null = .float ((a - b) / b * 100)) ∧
        (b = 0 → a = 0 → (pct_change_col p).getD i Cell.null = Cell.null) ∧
        (b = 0 → a ≠ 0 →
          (pct_change_col p).getD i Cell.null = .inf (decide (a < 0)))) := by
    intro p hnum
    refine ⟨pct_getD_zero p, ?_⟩
    intro i h1 hi a b ha hb
    have hnum' : ∀ c ∈ p, isNumCell c = true := hnum (by omega)
    have hbody := pct_getD_pos hnum' h1 hi ha hb
    refine ⟨?_, ?_, ?_⟩
    · intro hb0
      rw [hbody, if_neg hb0]
      have harith : 100 * (a / b - 1) = (a - b) / b * 100 := by
        field_simp
        ring
      rw [harith]
    · intro hb0 ha0
      rw [hbody, if_pos hb0, if_pos ha0]
    · intro hb0 ha0
      rw [hbody, if_pos hb0, if_neg ha0]
  rcases hfc with rfl | rfl | rfl
  · exact ⟨p95, hg95, hc95, hn95, main p95 hn95⟩
  · exact ⟨p97, hg97, hc97, hn97, main p97 hn97⟩
  · exact ⟨pdi, hgdi, hcdi, hndi, main pdi hndi⟩

/-- Witness for C2 at a concrete two-row run. -/
theorem C2_witness :
    ∃ p, getColCellsO (okOr (transform_fuel_data dfPct)) ("ron95" ++ "_price")
        = some p ∧
      getColCellsO (okOr (transform_fuel_data dfPct)) ("ron95" ++ "_pct_change")
        = some (pct_change_col p) ∧
      (2 ≤ p.length → ∀ c ∈ p, isNumCell c = true) ∧
      (pct_change_col p).getD 0 Cell.null = Cell.null ∧
      (∀ i, 1 ≤ i → i < p.length → ∀ a b : ℚ,
        toQ (p.getD i Cell.null) = some a →
        toQ (p.getD (i - 1) Cell.null) = some b →
        (b ≠ 0 → (pct_change_col p).getD i Cell.null = .float ((a - b) / b * 100)) ∧
        (b = 0 → a = 0 → (pct_change_col p).getD i Cell.null = Cell.null) ∧
        (b = 0 → a ≠ 0 →
          (pct_change_col p).getD i Cell.null = .inf (decide (a < 0)))) :=
  C2_pct_change dfPct (okOr (transform_fuel_data dfPct))
    (by decide) (by decide) "ron95" (by decide)

/-! ### Order invariance of the transform (claim C5) -/

theorem dateLe_total (a b : Date) : dateLe a b = true ∨ dateLe b a = true := by
  unfold dateLe
  simp only [decide_eq_true_eq]
  omega

theorem dateLe_trans {a b c : Date} (h1 : dateLe a b = true)
    (h2 : dateLe b c = true) : dateLe a c = true := by
  unfold dateLe at h1 h2 ⊢
  simp only [decide_eq_true_eq] at h1 h2 ⊢
  omega

theorem dateLe_antisymm {a b : Date} (h1 : dateLe a b = true)
    (h2 : dateLe b a = true) : a = b := by
  rcases a with ⟨ay, am, ad⟩
  rcases b with ⟨by_, bm, bd⟩
  unfold dateLe at h1 h2
  simp only [decide_eq_true_eq] at h1 h2
  simp only [Date.mk.injEq]
  omega

theorem sorted_perm_eq_rows {i : Nat} :
    ∀ {l₁ l₂ : List Row}, l₁.Perm l₂ →
      l₁.Sorted (rowLe i) → l₂.Sorted (rowLe i) →
      (∀ r ∈ l₁, (dateKey i r).isSome = true) →
      (l₁.map (dateKey i)).Nodup → l₁ = l₂ := by
  intro l₁
  induction l₁ with
  | nil =>
    intro l₂ hp _ _ _ _
    exact (hp.nil_eq).symm ▸ rfl
  | cons a t ih =>
    intro l₂ hp hs₁ hs₂ hkeys hnd
    cases l₂ with
    | nil => exact absurd hp.symm.nil_eq (by simp)
    | cons b t₂ =>
      have hab : a = b := by
        by_contra hne
        have hbmem : b ∈ a :: t := hp.symm.subset (List.mem_cons_self b t₂)
        have hamem : a ∈ b :: t₂ := hp.subset (List.mem_cons_self a t)
        have hbt : b ∈ t := by
          rcases List.mem_cons.1 hbmem with h | h
          · exact absurd h.symm hne
          · exact h
        have hat2 : a ∈ t₂ := by
          rcases List.mem_cons.1 hamem with h | h
          · exact absurd h hne
          · exact h
        have h1 : rowLe i a b := List.rel_of_sorted_cons hs₁ b hbt
        have h2 : rowLe i b a := List.rel_of_sorted_cons hs₂ a hat2
        obtain ⟨da, hda⟩ := Option.isSome_iff_exists.mp (hkeys a (by simp))
        obtain ⟨db, hdb⟩ := Option.isSome_iff_exists.mp (hkeys b (by simp [hbt]))
        unfold rowLe keyLe at h1 h2
        rw [hda, hdb] at h1
        rw [hdb, hda] at h2
        have hdd : da = db := dateLe_antisymm h1 h2
        have hnin : dateKey i a ∉ t.map (dateKey i) := (List.nodup_cons.1 hnd).1
        exact hnin (by
          rw [hda, hdd, ← hdb]
          exact List.mem_map_of_mem (dateKey i) hbt)
      subst hab
      have htp : t.Perm t₂ := hp.cons_inv
      have := ih htp hs₁.of_cons hs₂.of_cons
        (fun r hr => hkeys r (by simp [hr])) (List.nodup_cons.1 hnd).2
      rw [this]

theorem mapE_ok_map {f : α → Except PdError β} (d : β) :
    ∀ {l : List α}, (∀ a ∈ l, ∃ b, f a = .ok b) →
      mapE f l = .ok (l.map (fun a => (f a).toOption.getD d))
  | [], _ => rfl
  | a :: l, h => by
    obtain ⟨b, hb⟩ := h a (by simp)
    rw [mapE, hb, mapE_ok_map d (fun a' ha' => h a' (by simp [ha']))]
    simp [hb, Except.toOption]

theorem dateKey_parsed {pidx : Nat} {r : Row} {dt : Date}
    (hok : parseDateCell (r.getD pidx Cell.null) = .ok (some dt)) :
    dateKey pidx ((parseRowDate pidx r).toOption.getD []) = some dt := by
  have hlt : pidx < r.length := by
    by_contra hge
    rw [List.getD_eq_getElem?_getD, List.getElem?_eq_none (by omega)] at hok
    simp [parseDateCell] at hok
  unfold parseRowDate
  rw [hok]
  simp only [Except.toOption, Option.getD_some]
  unfold dateKey dateCellOf
  rw [List.getD_eq_getElem?_getD, List.getElem?_set_self hlt]
  rfl

theorem isOkSome_exists {e : Except PdError (Option Date)}
    (h : isOkSome e = true) : ∃ dt, e = .ok (some dt) := by
  unfold isOkSome at h
  split at h
  · rename_i dt
    exact ⟨dt, rfl⟩
  · exact absurd h (by simp)

/-- Claim C5 (corrected): `transform_fuel_data` is invariant under row
permutations of the input provided the dates of the table all parse and are
pairwise distinct — the sort then fixes one canonical row order, so the
two runs coincide (errors included).  With a duplicated `price_date` the
invariance fails, as the concrete counterexample shows, because the sort
keeps tied rows in their input order. -/
theorem C5_order_invariance (t t' : DataFrame) (hcols : t.cols = t'.cols)
    (hperm : t.rows.Perm t'.rows) (hgood : GoodDates t) :
    transform_fuel_data t = transform_fuel_data t' := by
  have hrn_cols : (rename_columns t).cols = (rename_columns t').cols := by
    unfold rename_columns
    rw [hcols]
  have hidx : ∀ n, colIdx (rename_columns t) n = colIdx (rename_columns t') n :=
    colIdx_eq_of_names (by rw [hrn_cols])
  unfold GoodDates goodDatesB at hgood
  unfold transform_fuel_data
  cases hpidx : colIdx (rename_columns t) "price_date" with
  | none =>
    rw [hpidx] at hgood
    simp at hgood
  | some pidx =>
    rw [hpidx] at hgood
    rw [Bool.and_eq_true] at hgood
    obtain ⟨hall, hnd⟩ := hgood
    have hall' : ∀ r ∈ t.rows, isOkSome (parseDateCell (r.getD pidx Cell.null)) = true :=
      fun r hr => List.all_eq_true.1 hall r hr
    have hnd' : (t.rows.map (parsedKey pidx)).Nodup := of_decide_eq_true hnd
    have hpidx' : colIdx (rename_columns t') "price_date" = some pidx := by
      rw [← hidx "price_date"]
      exact hpidx
    rw [hpidx']
    dsimp only
    have hok : ∀ r ∈ (rename_columns t).rows, ∃ b, parseRowDate pidx r = .ok b := by
      intro r hr
      obtain ⟨dt, hdt⟩ := isOkSome_exists (hall' r hr)
      exact ⟨r.set pidx (dateCellOf (some dt)), by unfold parseRowDate; rw [hdt]⟩
    have hok' : ∀ r ∈ (rename_columns t').rows, ∃ b, parseRowDate pidx r = .ok b :=
      fun r hr => hok r (hperm.symm.subset hr)
    rw [mapE_ok_map [] hok, mapE_ok_map [] hok']
    dsimp only
    have hgperm :
        ((rename_columns t).rows.map
            (fun r => (parseRowDate pidx r).toOption.getD [])).Perm
          ((rename_columns t').rows.map
            (fun r => (parseRowDate pidx r).toOption.getD [])) :=
      hperm.map _
    have hkeys : ∀ r ∈ (rename_columns t).rows.map
        (fun r => (parseRowDate pidx r).toOption.getD []),
        (dateKey pidx r).isSome = true := by
      intro r hr
      rcases List.mem_map.1 hr with ⟨r₀, hr₀, rfl⟩
      obtain ⟨dt, hdt⟩ := isOkSome_exists (hall' r₀ hr₀)
      rw [dateKey_parsed hdt]
      rfl
    have hkeymap : ((rename_columns t).rows.map
        (fun r => (parseRowDate pidx r).toOption.getD [])).map (dateKey pidx)
        = t.rows.map (parsedKey pidx) := by
      rw [List.map_map]
      refine List.map_congr_left (fun r hr => ?_)
      obtain ⟨dt, hdt⟩ := isOkSome_exists (hall' r hr)
      simp only [Function.comp]
      rw [dateKey_parsed hdt]
      unfold parsedKey
      rw [hdt]
    have hsorteq :
        List.insertionSort (rowLe pidx)
            ((rename_columns t).rows.map
              (fun r => (parseRowDate pidx r).toOption.getD []))
          = List.insertionSort (rowLe pidx)
            ((rename_columns t').rows.map
              (fun r => (parseRowDate pidx r).toOption.getD [])) := by
      apply sorted_perm_eq_rows
      · exact ((List.perm_insertionSort _ _).trans hgperm).trans
          (List.perm_insertionSort _ _).symm
      · exact List.sorted_insertionSort _ _
      · exact List.sorted_insertionSort _ _
      · intro r hr
        exact hkeys r ((List.perm_insertionSort _ _).subset hr)
      · have h1 : (List.insertionSort (rowLe pidx)
            ((rename_columns t).rows.map
              (fun r => (parseRowDate pidx r).toOption.getD []))).map (dateKey pidx)
            |>.Perm (t.rows.map (parsedKey pidx)) := by
          rw [← hkeymap]
          exact (List.perm_insertionSort _ _).map _
        exact h1.symm.nodup hnd'
    rw [hsorteq, hrn_cols]

/-- Witness for C5 at a concrete permuted pair with distinct dates. -/
theorem C5_witness : transform_fuel_data dfPerm = transform_fuel_data dfPermSwap :=
  C5_order_invariance dfPerm dfPermSwap rfl (by decide) (by decide)

/-! ### Full characterization of `trim_spaces` on present labels (claim C9) -/

theorem dropWhile_head_false {p : Char → Bool} :
    ∀ {l : List Char} {c : Char} {cs : List Char},
      l.dropWhile p = c :: cs → p c = false
  | [], _, _ => by simp
  | a :: l, c, cs => by
    intro h
    by_cases ha : p a = true
    · rw [List.dropWhile_cons_of_pos ha] at h
      exact dropWhile_head_false h
    · rw [List.dropWhile_cons_of_neg ha] at h
      cases h
      simpa using ha

theorem dropWhile_idem {p : Char → Bool} :
    ∀ (l : List Char), List.dropWhile p (List.dropWhile p l) = List.dropWhile p l
  | [] => rfl
  | a :: l => by
    by_cases ha : p a = true
    · rw [List.dropWhile_cons_of_pos ha]
      exact dropWhile_idem l
    · rw [List.dropWhile_cons_of_neg ha, List.dropWhile_cons_of_neg ha]

theorem dropWhile_eq_self_of_head {p : Char → Bool} {l : List Char}
    (h : ∀ c cs, l = c :: cs → p c = false) : l.dropWhile p = l := by
  cases l with
  | nil => rfl
  | cons a l => exact List.dropWhile_cons_of_neg (by simp [h a l rfl])

theorem dropWhile_suffix_decomp {p : Char → Bool} :
    ∀ (l : List Char), ∃ t, t ++ l.dropWhile p = l
  | [] => ⟨[], rfl⟩
  | a :: l => by
    by_cases ha : p a = true
    · obtain ⟨t, ht⟩ := @dropWhile_suffix_decomp p l
      exact ⟨a :: t, by rw [List.dropWhile_cons_of_pos ha]; simpa using ht⟩
    · exact ⟨[], by rw [List.dropWhile_cons_of_neg ha]; rfl⟩

theorem stripChars_idem (l : List Char) : stripChars (stripChars l) = stripChars l := by
  unfold stripChars
  have hBhead : ∀ c cs,
      ((l.dropWhile isPySpace).reverse.dropWhile isPySpace).reverse = c :: cs →
      isPySpace c = false := by
    intro c cs hB
    obtain ⟨t, ht⟩ := @dropWhile_suffix_decomp isPySpace
      (l.dropWhile isPySpace).reverse
    have hD2 : (l.dropWhile isPySpace).reverse.dropWhile isPySpace
        = (c :: cs).reverse := by
      rw [← hB, List.reverse_reverse]
    rw [hD2] at ht
    have hA : l.dropWhile isPySpace = c :: (cs ++ t.reverse) := by
      have h1 : (l.dropWhile isPySpace).reverse.reverse
          = (t ++ (c :: cs).reverse).reverse := by rw [ht]
      rw [List.reverse_reverse] at h1
      rw [h1]
      simp
    exact dropWhile_head_false hA
  rw [dropWhile_eq_self_of_head hBhead, List.reverse_reverse, dropWhile_idem]

theorem pyStrip_idem (s : String) : pyStrip (pyStrip s) = pyStrip s := by
  unfold pyStrip
  exact congrArg String.mk (stripChars_idem s.data)

theorem trimCell_idem (c : Cell) : trimCell (trimCell c) = trimCell c := by
  unfold trimCell
  exact congrArg Cell.str (by
    show pyStrip (pyStr (Cell.str (pyStrip (pyStr c)))) = pyStrip (pyStr c)
    exact pyStrip_idem (pyStr c))

theorem colIdx_self_getD {df : DataFrame} {n : String} {i : Nat}
    (h : colIdx df n = some i) : (df.cols.getD i ("", Dtype.object)).1 = n := by
  have hg := idxOf?_get _ _ _ h
  have hi : i < df.cols.length := by
    have := idxOf?_lt h
    simpa using this
  rw [List.getElem?_map] at hg
  cases hc : df.cols[i]? with
  | none => rw [hc] at hg; simp at hg
  | some e =>
    rw [hc] at hg
    simp only [Option.map_some'] at hg
    have : e.1 = n := by simpa using hg
    rw [List.getD_eq_getElem?_getD, hc]
    simpa using this

theorem dtype_set_col_ne {df : DataFrame} {c n : String} {dt : Dtype}
    {cs : List Cell} {i j : Nat} (hc : colIdx df c = some i)
    (hn : colIdx df n = some j) (hne : n ≠ c) :
    ((set_col df c dt cs).cols.getD j ("", Dtype.object))
      = df.cols.getD j ("", Dtype.object) := by
  unfold set_col
  rw [hc]
  have hij : i ≠ j := by
    intro hij
    subst hij
    have h1 := colIdx_self_getD hc
    have h2 := colIdx_self_getD hn
    rw [h1] at h2
    exact hne h2.symm
  simp only
  rw [List.getD_eq_getElem?_getD, List.getD_eq_getElem?_getD,
    List.getElem?_set_ne hij]

theorem dtype_set_col_self {df : DataFrame} {c : String} {dt : Dtype}
    {cs : List Cell} {i : Nat} (hc : colIdx df c = some i) :
    ((set_col df c dt cs).cols.getD i ("", Dtype.object)) = (c, dt) := by
  unfold set_col
  rw [hc]
  have hi : i < df.cols.length := by
    have := idxOf?_lt hc
    simpa using this
  simp only
  rw [List.getD_eq_getElem?_getD, List.getElem?_set_self hi]
  rfl

theorem TextCol_set_col_text {df : DataFrame} {c : String} {cs : List Cell} {i : Nat}
    (hc : colIdx df c = some i)
    (htext : (df.cols.getD i ("", Dtype.object)).2 = Dtype.object ∨
      (df.cols.getD i ("", Dtype.object)).2 = Dtype.stringDt) (n : String) :
    TextCol (set_col df c Dtype.object cs) n ↔ TextCol df n := by
  unfold TextCol isTextColB
  rw [hasCol_set_col hc]
  cases hn : colIdx df n with
  | none => exact Iff.rfl
  | some j =>
    dsimp only
    by_cases hne : n = c
    · subst hne
      have hij : j = i := by
        rw [hn] at hc
        exact (Option.some.inj hc).symm ▸ rfl
      subst hij
      rw [dtype_set_col_self hc]
      constructor
      · intro _
        rcases htext with ht | ht <;>
          simp only [List.getD_eq_getElem?_getD] at ht <;> simp [ht]
      · intro _
        simp
    · rw [dtype_set_col_ne hc hn hne]

theorem idxOf?_isSome_of_mem {n : String} :
    ∀ {names : List String}, n ∈ names → (idxOf? n names).isSome = true
  | [], h => by simp at h
  | m :: rest, h => by
    rw [idxOf?]
    by_cases hm : m = n
    · simp [hm]
    · rcases List.mem_cons.1 h with rfl | hmem
      · exact absurd rfl hm
      · simp only [if_neg hm]
        have := idxOf?_isSome_of_mem hmem
        cases hx : idxOf? n rest with
        | none => rw [hx] at this; simp at this
        | some j => simp [hx]

theorem hasCol_of_textColName {df : DataFrame} {n : String}
    (h : n ∈ textColNames df) : hasCol df n := by
  unfold textColNames at h
  rcases List.mem_map.1 h with ⟨e, he, rfl⟩
  have : e.1 ∈ df.cols.map (·.1) :=
    List.mem_map_of_mem _ (List.mem_of_mem_filter he)
  unfold hasCol colIdx
  exact idxOf?_isSome_of_mem this

theorem trimGo_ok_pointwise :
    ∀ (cols : List String) (df : DataFrame), Rect df →
      (∀ c ∈ cols, hasCol df c) →
      ∃ out, trimGo df cols = .ok out ∧ Rect out ∧
        out.cols.map (·.1) = df.cols.map (·.1) ∧
        out.rows.length = df.rows.length ∧
        (∀ n, getColCellsO out n =
          if n ∈ cols ∧ TextCol df n
          then (getColCellsO df n).map (fun cs => cs.map trimCell)
          else getColCellsO df n)
  | [], df => by
    intro hrect _
    refine ⟨df, rfl, hrect, rfl, rfl, ?_⟩
    intro n
    simp
  | c :: rest, df => by
    intro hrect hpres
    have hc : hasCol df c := hpres c (by simp)
    obtain ⟨i, hci⟩ := Option.isSome_iff_exists.mp hc
    rw [trimGo, hci]
    dsimp only
    by_cases htext : (df.cols.getD i ("", Dtype.object)).2 = Dtype.object ∨
        (df.cols.getD i ("", Dtype.object)).2 = Dtype.stringDt
    · rw [if_pos htext]
      set cells := df.rows.map (fun r => r.getD i Cell.null) with hcells
      set df₂ := set_col df c .object (cells.map trimCell) with hdf₂
      have hlen : (cells.map trimCell).length = df.rows.length := by
        rw [hcells]; simp
      have hrect₂ : Rect df₂ := rect_set_col hrect hlen
      have hnames₂ : df₂.cols.map (·.1) = df.cols.map (·.1) :=
        names_set_col_of_mem hci _ _
      have hidx₂ : ∀ n, colIdx df₂ n = colIdx df n := fun n => hasCol_set_col hci _ _ n
      have hpres₂ : ∀ c' ∈ rest, hasCol df₂ c' := by
        intro c' hc'
        unfold hasCol
        rw [hidx₂]
        exact hpres c' (by simp [hc'])
      obtain ⟨out, hgo, hrectO, hnamesO, hlenO, hptO⟩ :=
        trimGo_ok_pointwise rest df₂ hrect₂ hpres₂
      refine ⟨out, hgo, hrectO, by rw [hnamesO, hnames₂], by
        rw [hlenO, hdf₂, length_rows_set_col hlen], ?_⟩
      intro n
      have hTC : ∀ m, TextCol df₂ m ↔ TextCol df m := TextCol_set_col_text hci htext
      have hgetc : getColCellsO df c = some cells := by
        unfold getColCellsO
        rw [hci, hcells]
        rfl
      have hget₂c : getColCellsO df₂ c = some (cells.map trimCell) :=
        getColCellsO_set_col_self hrect hlen
      have hTCc : TextCol df c := by
        unfold TextCol isTextColB
        rw [hci]
        rcases htext with ht | ht <;>
          simp only [List.getD_eq_getElem?_getD] at ht <;> simp [ht]
      by_cases hnc : n = c
      · subst hnc
        rw [hptO n]
        by_cases hmem : n ∈ rest
        · rw [if_pos ⟨hmem, (hTC n).mpr hTCc⟩, if_pos ⟨by simp, hTCc⟩]
          rw [hget₂c, hgetc]
          simp only [Option.map_some']
          rw [List.map_map]
          exact congrArg some (List.map_congr_left (fun x _ => trimCell_idem x))
        · rw [if_neg (by
            intro hand
            exact hmem hand.1), if_pos ⟨by simp, hTCc⟩]
          rw [hget₂c, hgetc]
          rfl
      · have hget₂n : getColCellsO df₂ n = getColCellsO df n :=
          getColCellsO_set_col_ne hrect hlen (fun he => hnc he.symm)
        rw [hptO n, hget₂n]
        by_cases hcase : n ∈ rest ∧ TextCol df n
        · rw [if_pos ⟨hcase.1, (hTC n).mpr hcase.2⟩,
            if_pos ⟨by simp [hcase.1], hcase.2⟩]
        · rw [if_neg (by
            intro hand
            exact hcase ⟨hand.1, (hTC n).mp hand.2⟩), if_neg (by
            intro hand
            rcases List.mem_cons.1 hand.1 with rfl | hmem
            · exact hnc rfl
            · exact hcase ⟨hmem, hand.2⟩)]
    · rw [if_neg htext]
      have hnotText : ¬ TextCol df c := by
        unfold TextCol isTextColB
        rw [hci]
        intro hcon
        apply htext
        rw [Bool.or_eq_true] at hcon
        rcases hcon with ht | ht
        · exact Or.inl (by simpa using ht)
        · exact Or.inr (by simpa using ht)
      obtain ⟨out, hgo, hrectO, hnamesO, hlenO, hptO⟩ :=
        trimGo_ok_pointwise rest df hrect (fun c' hc' => hpres c' (by simp [hc']))
      refine ⟨out, hgo, hrectO, hnamesO, hlenO, ?_⟩
      intro n
      rw [hptO n]
      by_cases hcase : n ∈ rest ∧ TextCol df n
      · rw [if_pos hcase, if_pos ⟨by simp [hcase.1], hcase.2⟩]
      · rw [if_neg hcase, if_neg (by
          intro hand
          rcases List.mem_cons.1 hand.1 with rfl | hmem
          · exact hnotText hand.2
          · exact hcase ⟨hmem, hand.2⟩)]

/-- Claim C9 (corrected): `trim_spaces` with present labels never fails,
but only the listed columns of object/string dtype are stringified
(`astype(str)`) and stripped — a listed column of any other dtype is
skipped with a printed notice, not coerced as the claim states (see the
concrete counterexample); with no columns given, exactly the
object/string-dtype columns are processed. -/
theorem C9_amended (df : DataFrame) (cols : List String) (hrect : Rect df)
    (hpres : ∀ c ∈ cols, hasCol df c) :
    ∃ out, trim_spaces df cols = .ok out ∧
      out.cols.map (·.1) = df.cols.map (·.1) ∧
      (∀ n, getColCellsO out n =
        if n ∈ (if cols.isEmpty then textColNames df else cols) ∧ TextCol df n
        then (getColCellsO df n).map (fun cs => cs.map trimCell)
        else getColCellsO df n) := by
  unfold trim_spaces
  by_cases hemp : cols.isEmpty
  · rw [if_pos hemp]
    obtain ⟨out, hgo, _, hnames, _, hpt⟩ :=
      trimGo_ok_pointwise (textColNames df) df hrect
        (fun c hc => hasCol_of_textColName hc)
    exact ⟨out, hgo, hnames, fun n => by rw [hpt n]⟩
  · rw [if_neg hemp]
    obtain ⟨out, hgo, _, hnames, _, hpt⟩ :=
      trimGo_ok_pointwise cols df hrect hpres
    exact ⟨out, hgo, hnames, fun n => by rw [hpt n]⟩

/-- Witness for C9 at a concrete frame with one text and one float
column. -/
theorem C9_witness :
    ∃ out, trim_spaces dfTrim ["a", "x"] = .ok out ∧
      out.cols.map (·.1) = dfTrim.cols.map (·.1) ∧
      (∀ n, getColCellsO out n =
        if n ∈ (if (["a", "x"] : List String).isEmpty then textColNames dfTrim
                else ["a", "x"]) ∧ TextCol dfTrim n
        then (getColCellsO dfTrim n).map (fun cs => cs.map trimCell)
        else getColCellsO dfTrim n) :=
  C9_amended dfTrim ["a", "x"] (by decide) (by decide)

end DataPrep
